import Mathlib

/-!
Shallow embedding of the sales-analytics pipeline
(`utils/file_handler.py`, `utils/data_processor.py`, `utils/api_handler.py`,
`utils/reporting.py`) and proofs about it.

Conventions of the embedding:
* Python floats are modelled as rationals (`Rat`); Python ints as `Int`.
* A Python value that may sit in a record field is a `PyVal`
  (string, int, or float).
* Python dicts keyed by strings are modelled as association lists in
  insertion order (`dUpdate` appends fresh keys at the end and updates
  existing keys in place, exactly like an insertion-ordered dict).
* Fallible conversions (`int(x)`, `float(x)`) return `Option`.
-/

/-- A Python value that can appear in a transaction-record field:
a string, an int, or a float (modelled as a rational). -/
inductive PyVal where
  | vStr (s : String)
  | vInt (n : Int)
  | vFloat (q : Rat)
deriving Repr, DecidableEq

namespace PyVal

/-- Decimal digits of a fractional part `0 ≤ q < 1`, with fuel.
Used by `pyStr` for the float case. -/
def fracDigits : Nat → Rat → String
  | 0, _ => ""
  | fuel + 1, q =>
      if q = 0 then ""
      else
        let q10 := q * 10
        let d : Int := Rat.floor q10
        toString d ++ fracDigits fuel (q10 - (d : Rat))

/-- Model of Python `str(float)` for decimal-representable rationals:
sign, integer part, a dot, then the fractional digits (`"10.0"` for a
whole number, `"10.5"` for ten and a half). -/
def floatRepr (q : Rat) : String :=
  let a := |q|
  let ip : Int := Rat.floor a
  let frac := fracDigits 40 (a - (ip : Rat))
  (if q < 0 then "-" else "") ++ toString ip ++ "." ++
    (if frac = "" then "0" else frac)

/-- Model of Python `str(value)`. -/
def pyStr : PyVal → String
  | vStr s => s
  | vInt n => toString n
  | vFloat q => floatRepr q

/-- Truncation of a rational toward zero, as Python `int(float)` does. -/
def truncToInt (q : Rat) : Int :=
  if 0 ≤ q then Rat.floor q else Rat.ceil q

/-- Model of Python `int(value)`: identity on ints, truncation on floats,
and decimal-integer parsing (after stripping surrounding whitespace) on
strings; `none` models the `ValueError`/`TypeError` path. -/
def pyInt : PyVal → Option Int
  | vStr s => s.trim.toInt?
  | vInt n => some n
  | vFloat q => some (truncToInt q)

/-- Parse a non-empty all-digit string as a natural number, `none` otherwise. -/
def digitsToNat? (s : String) : Option Nat :=
  if s ≠ "" ∧ s.toList.all Char.isDigit then some (s.toNat!) else none

/-- Parse an unsigned decimal literal (digits, optionally with a dot and
more digits) as a rational. -/
def decToRat? (s : String) : Option Rat :=
  match s.splitOn "." with
  | [a] => (digitsToNat? a).map (fun n => (n : Rat))
  | [a, b] =>
      if a = "" ∧ b = "" then none
      else
        let ap := if a = "" then some 0 else digitsToNat? a
        let bp := if b = "" then some 0 else digitsToNat? b
        match ap, bp with
        | some w, some f => some ((w : Rat) + (f : Rat) / ((10 : Rat) ^ b.length))
        | _, _ => none
  | _ => none

/-- Model of Python `float(str)` for plain decimal literals: optional sign,
digits, optional fractional part (no exponent forms, which the pipeline
never produces). -/
def floatOfStr (s : String) : Option Rat :=
  let t := s.trim
  if t.startsWith "-" then (decToRat? (t.drop 1)).map (fun q => -q)
  else if t.startsWith "+" then decToRat? (t.drop 1)
  else decToRat? t

/-- Model of Python `float(value)`. -/
def pyFloat : PyVal → Option Rat
  | vStr s => floatOfStr s
  | vInt n => some (n : Rat)
  | vFloat q => some q

end PyVal

open PyVal

/-! ### Insertion-ordered dict helpers -/

/-- Lookup in an association list (first binding wins, as in a dict with
no duplicate keys). -/
def dLookup {α : Type} (l : List (String × α)) (k : String) : Option α :=
  match l with
  | [] => none
  | (k', v) :: rest => if k' = k then some v else dLookup rest k

/-- `d.get(k, dflt)` on an association-list dict. -/
def dGetD {α : Type} (l : List (String × α)) (k : String) (dflt : α) : α :=
  (dLookup l k).getD dflt

/-- `d[k] = f(d.get(k, dflt))` on an insertion-ordered dict: an existing
key is updated in place, a fresh key is appended at the end. -/
def dUpdate {α : Type} (l : List (String × α)) (k : String) (f : α → α)
    (dflt : α) : List (String × α) :=
  match l with
  | [] => [(k, f dflt)]
  | (k', v) :: rest =>
      if k' = k then (k', f v) :: rest else (k', v) :: dUpdate rest k f dflt

/-- The keys of an association-list dict, in insertion order. -/
def dKeys {α : Type} (l : List (String × α)) : List String := l.map Prod.fst

/-! ### Transaction records (`utils/file_handler.py`) -/

/-- A parsed transaction record: a dict whose 8 expected keys may each be
present (with any `PyVal`) or absent. -/
structure Txn where
  transactionID : Option PyVal
  date : Option PyVal
  productID : Option PyVal
  productName : Option PyVal
  quantity : Option PyVal
  unitPrice : Option PyVal
  customerID : Option PyVal
  region : Option PyVal
deriving Repr, DecidableEq

namespace Txn

/-- Python `str(t.get(k, ''))`. -/
def getStr (o : Option PyVal) : String := ((o.map pyStr).getD "")

/-- All 8 required fields are present
(`required.issubset(t.keys())` in `validate_and_filter`). -/
def allPresent (t : Txn) : Bool :=
  t.transactionID.isSome && t.date.isSome && t.productID.isSome &&
  t.productName.isSome && t.quantity.isSome && t.unitPrice.isSome &&
  t.customerID.isSome && t.region.isSome

/-- `any(str(t.get(k,'')).strip()=='' for k in EXPECTED_HEADERS)`. -/
def anyBlank (t : Txn) : Bool :=
  (getStr t.transactionID).trim == "" || (getStr t.date).trim == "" ||
  (getStr t.productID).trim == "" || (getStr t.productName).trim == "" ||
  (getStr t.quantity).trim == "" || (getStr t.unitPrice).trim == "" ||
  (getStr t.customerID).trim == "" || (getStr t.region).trim == ""

end Txn

/-! ### `validate_and_filter` (`utils/file_handler.py`, lines 109-181) -/

/-- The per-record validation chain of `validate_and_filter`: `none` means
the record is rejected (the invalid counter is incremented once), `some`
carries the accepted record (with `Quantity` re-stored as an int and
`UnitPrice` as a float) together with its `_amount`. -/
def checkRecord (t : Txn) : Option (Txn × Rat) :=
  if ¬ t.allPresent then none
  else if t.anyBlank then none
  else
    match t.quantity, t.unitPrice with
    | some qv, some pv =>
        match pyInt qv, pyFloat pv with
        | some qty, some price =>
            if qty ≤ 0 ∨ price ≤ 0 then none
            else if ¬ (Txn.getStr t.transactionID).startsWith "T" then none
            else if ¬ (Txn.getStr t.productID).startsWith "P" then none
            else if ¬ (Txn.getStr t.customerID).startsWith "C" then none
            else
              some ({ t with quantity := some (PyVal.vInt qty),
                             unitPrice := some (PyVal.vFloat price) },
                    (qty : Rat) * price)
        | _, _ => none
    | _, _ => none

/-- The validation loop of `validate_and_filter`: accepted records in
order, plus the invalid count. -/
def firstPass : List Txn → List (Txn × Rat) × Nat
  | [] => ([], 0)
  | t :: ts =>
      let rest := firstPass ts
      match checkRecord t with
      | some v => (v :: rest.1, rest.2)
      | none => (rest.1, rest.2 + 1)

/-- The summary dict returned by `validate_and_filter`. -/
structure VSummary where
  total_input : Nat
  invalid : Nat
  filtered_by_region : Nat
  filtered_by_amount : Nat
  final_count : Nat
deriving Repr, DecidableEq

/-- `validate_and_filter(transactions, region, min_amount, max_amount)`:
returns the valid records (after the optional region and amount filters,
with the transient `_amount` key popped), the invalid count, and the
summary. `region=None` and `region=''` are both falsy in Python, so the
region filter runs only for a non-empty region string. -/
def validate_and_filter (transactions : List Txn) (region : Option String)
    (min_amount max_amount : Option Rat) :
    List Txn × Nat × VSummary :=
  let total_input := transactions.length
  let fp := firstPass transactions
  let valid0 := fp.1
  let invalid_count := fp.2
  let before_region := valid0.length
  let valid1 :=
    if region.getD "" ≠ "" then
      valid0.filter (fun r => (Txn.getStr r.1.region).trim == region.getD "")
    else valid0
  let filtered_by_region := before_region - valid1.length
  let before_amount := valid1.length
  let valid2 :=
    match min_amount with
    | some m => valid1.filter (fun (r : Txn × Rat) => decide (m ≤ r.2))
    | none => valid1
  let valid3 :=
    match max_amount with
    | some m => valid2.filter (fun (r : Txn × Rat) => decide (r.2 ≤ m))
    | none => valid2
  let filtered_by_amount := before_amount - valid3.length
  (valid3.map Prod.fst, invalid_count,
    { total_input := total_input
      invalid := invalid_count
      filtered_by_region := filtered_by_region
      filtered_by_amount := filtered_by_amount
      final_count := valid3.length })

/-- Written from the spec's words (§4.2), for comparison with
`checkRecord`: the index (1-4) of the first failing rule, in the fixed
order — 1: missing any of the 8 required fields; 2: any required field
blank after trimming; 3: quantity/price not convertible or quantity ≤ 0
or price ≤ 0; 4: `TransactionID` not prefixed `T`, then `ProductID` not
prefixed `P`, then `CustomerID` not prefixed `C`. -/
def specFirstFailingRule (t : Txn) : Option Nat :=
  if ¬ t.allPresent then some 1
  else if t.anyBlank then some 2
  else
    match t.quantity, t.unitPrice with
    | some qv, some pv =>
        match pyInt qv, pyFloat pv with
        | some qty, some price =>
            if qty ≤ 0 ∨ price ≤ 0 then some 3
            else if ¬ (Txn.getStr t.transactionID).startsWith "T" then some 4
            else if ¬ (Txn.getStr t.productID).startsWith "P" then some 4
            else if ¬ (Txn.getStr t.customerID).startsWith "C" then some 4
            else none
        | _, _ => some 3
    | _, _ => some 3

/-! ### Aggregation engine (`utils/data_processor.py`) -/

/-- Round-half-to-even of a rational to an integer, as Python's `round`
does on floats (idealized over the rationals). -/
def roundHalfEven (q : Rat) : Int :=
  let f := Rat.floor q
  let r := q - (f : Rat)
  if r < 1/2 then f
  else if 1/2 < r then f + 1
  else if f % 2 = 0 then f else f + 1

/-- Python `round(x, 2)`. -/
def pyRound2 (q : Rat) : Rat := (roundHalfEven (q * 100) : Rat) / 100

/-- `_amount(txn)`: `int(txn.get('Quantity', 0)) * float(txn.get('UnitPrice', 0.0))`,
with 0.0 on any conversion failure. -/
def pyAmount (t : Txn) : Rat :=
  match pyInt (t.quantity.getD (PyVal.vInt 0)),
        pyFloat (t.unitPrice.getD (PyVal.vFloat 0)) with
  | some qty, some price => (qty : Rat) * price
  | _, _ => 0

/-- `calculate_total_revenue`: running sum of `_amount` over the records. -/
def calculate_total_revenue (ts : List Txn) : Rat :=
  ts.foldl (fun total t => total + pyAmount t) 0

/-- The region grouping key: `str(t.get('Region','')).strip() or 'Unknown'`. -/
def regionKey (t : Txn) : String :=
  let s := (Txn.getStr t.region).trim
  if s = "" then "Unknown" else s

/-- Per-region stats row of `region_wise_sales`. -/
structure RegionStats where
  total_sales : Rat
  transaction_count : Nat
  percentage : Rat
deriving Repr, DecidableEq

/-- `region_wise_sales`: the `totals` and `counts` dicts are filled in one
loop in the source; keyed by the same `regionKey`, they are modelled as two
folds. Rows are built in `totals` insertion order, then stably sorted by
`total_sales` descending (`reverse=True`). -/
def region_wise_sales (ts : List Txn) : List (String × RegionStats) :=
  let totals := ts.foldl
    (fun d t => dUpdate d (regionKey t) (fun x => x + pyAmount t) 0) []
  let counts := ts.foldl
    (fun d t => dUpdate d (regionKey t) (fun x => x + 1) 0)
    ([] : List (String × Nat))
  let grand := (totals.map Prod.snd).sum
  let rows := totals.map (fun p =>
    let pct := if 0 < grand then p.2 / grand * 100 else 0
    (p.1, RegionStats.mk p.2 (dGetD counts p.1 0) (pyRound2 pct)))
  rows.mergeSort (fun a b => decide (b.2.total_sales ≤ a.2.total_sales))

/-- The product grouping key: `str(t.get('ProductName','')).strip() or 'Unknown'`. -/
def prodKey (t : Txn) : String :=
  let s := (Txn.getStr t.productName).trim
  if s = "" then "Unknown" else s

/-- `try: q = int(t.get('Quantity', 0)) except: q = 0`. -/
def prodQty (t : Txn) : Int :=
  (pyInt (t.quantity.getD (PyVal.vInt 0))).getD 0

/-- The `qty` aggregation dict shared by `top_selling_products` and
`low_performing_products` (both build it with the identical loop). -/
def prodQtyDict (ts : List Txn) : List (String × Int) :=
  ts.foldl (fun d t => dUpdate d (prodKey t) (fun x => x + prodQty t) 0) []

/-- The `rev` aggregation dict shared by `top_selling_products` and
`low_performing_products`. -/
def prodRevDict (ts : List Txn) : List (String × Rat) :=
  ts.foldl (fun d t => dUpdate d (prodKey t) (fun x => x + pyAmount t) 0) []

/-- `top_selling_products(transactions, n)`: rows `(name, qty, rev)` in
`qty`-dict key order, stably sorted by `(qty, rev)` descending
(`reverse=True`), truncated to `max(int(n), 0)` entries. -/
def top_selling_products (ts : List Txn) (n : Int) : List (String × Int × Rat) :=
  let qty := prodQtyDict ts
  let rev := prodRevDict ts
  let rows := qty.map (fun p => (p.1, p.2, dGetD rev p.1 0))
  (rows.mergeSort (fun a b =>
    decide (b.2.1 < a.2.1) || (decide (a.2.1 = b.2.1) && decide (b.2.2 ≤ a.2.2)))).take
    (max n 0).toNat

/-- The customer grouping key: `str(t.get('CustomerID','')).strip() or 'Unknown'`. -/
def custKey (t : Txn) : String :=
  let s := (Txn.getStr t.customerID).trim
  if s = "" then "Unknown" else s

/-- Per-customer stats row of `customer_analysis`. -/
structure CustStats where
  total_spent : Rat
  purchase_count : Nat
  avg_order_value : Rat
  products_bought : List String
deriving Repr, DecidableEq

/-- `customer_analysis`: `spent`/`counts`/`prods` dicts (one loop in the
source, modelled as three folds over the same keys); the per-customer
product set is modelled as a deduplicated list, emitted sorted; items are
stably sorted by `total_spent` descending. -/
def customer_analysis (ts : List Txn) : List (String × CustStats) :=
  let spent := ts.foldl
    (fun d t => dUpdate d (custKey t) (fun x => x + pyAmount t) 0) []
  let counts := ts.foldl
    (fun d t => dUpdate d (custKey t) (fun x => x + 1) 0)
    ([] : List (String × Nat))
  let prods := ts.foldl
    (fun d t => dUpdate d (custKey t)
      (fun s => if prodKey t ∈ s then s else s ++ [prodKey t])
      ([] : List String)) []
  let items := spent.map (fun p =>
    let cnt := dGetD counts p.1 0
    let aov := if 0 < cnt then pyRound2 (p.2 / (cnt : Rat)) else 0
    (p.1, CustStats.mk p.2 cnt aov
      ((dGetD prods p.1 []).mergeSort (fun a b => decide (a ≤ b)))))
  items.mergeSort (fun a b => decide (b.2.total_spent ≤ a.2.total_spent))

/-- `str(t.get('Date','')).strip()`. -/
def dateKey (t : Txn) : String := (Txn.getStr t.date).trim

/-- `str(t.get('CustomerID','')).strip()` (no `Unknown` fallback here). -/
def custRaw (t : Txn) : String := (Txn.getStr t.customerID).trim

/-- Accumulator entry of the `daily` dict in `daily_sales_trend`
(`revenue`, `transaction_count`, and the `_custs` set as a dedup list). -/
structure DayAcc where
  revenue : Rat
  transaction_count : Nat
  custs : List String
deriving Repr, DecidableEq

/-- Output entry of `daily_sales_trend`. -/
structure DayStats where
  revenue : Rat
  transaction_count : Nat
  unique_customers : Nat
deriving Repr, DecidableEq

/-- One record's effect on its day's accumulator in `daily_sales_trend`:
add the amount, count one transaction, and add the customer id to the
`_custs` set only when it is non-blank. -/
def dayUpd (t : Txn) (a : DayAcc) : DayAcc :=
  DayAcc.mk (a.revenue + pyAmount t) (a.transaction_count + 1)
    (if custRaw t ≠ "" ∧ custRaw t ∉ a.custs then a.custs ++ [custRaw t]
     else a.custs)

/-- The accumulation loop of `daily_sales_trend`: records with a blank
(stripped) date are skipped; each other record is folded into its day's
accumulator by `dayUpd`. -/
def dailyAcc (ts : List Txn) : List (String × DayAcc) :=
  ts.foldl (fun d t =>
    if dateKey t = "" then d
    else dUpdate d (dateKey t) (dayUpd t) (DayAcc.mk 0 0 [])) []

/-- `daily_sales_trend`: the `daily` dict re-emitted over `sorted(daily.keys())`,
with the revenue rounded to 2 decimals and the customer set collapsed to
its size. -/
def daily_sales_trend (ts : List Txn) : List (String × DayStats) :=
  let daily := dailyAcc ts
  ((dKeys daily).mergeSort (fun a b => decide (a ≤ b))).map (fun d =>
    let a := dGetD daily d (DayAcc.mk 0 0 [])
    (d, DayStats.mk (pyRound2 a.revenue) a.transaction_count a.custs.length))

/-- `find_peak_sales_day`: Python `max` over the trend's iteration order
(ascending dates) with key = revenue; `max` keeps the current element on
ties, so the first maximum — the earliest such date — wins. Returns
`none` when the trend is empty. -/
def find_peak_sales_day (ts : List Txn) : Option (String × Rat × Nat) :=
  let trend := daily_sales_trend ts
  match trend with
  | [] => none
  | x :: rest =>
      let best := rest.foldl
        (fun b c => if b.2.revenue < c.2.revenue then c else b) x
      some (best.1, best.2.revenue, best.2.transaction_count)

/-- `low_performing_products(transactions, threshold)`: rows for the
product groups whose aggregated quantity is strictly below the threshold,
sorted ascending by `(qty, rev, name)`. -/
def low_performing_products (ts : List Txn) (threshold : Int) :
    List (String × Int × Rat) :=
  let qty := prodQtyDict ts
  let rev := prodRevDict ts
  let rows := (qty.filter (fun p => decide (p.2 < threshold))).map
    (fun p => (p.1, p.2, dGetD rev p.1 0))
  rows.mergeSort (fun a b =>
    decide (a.2.1 < b.2.1) ||
    (decide (a.2.1 = b.2.1) &&
      (decide (a.2.2 < b.2.2) ||
       (decide (a.2.2 = b.2.2) && decide (a.1 ≤ b.1)))))

/-! ### Catalog enrichment (`utils/api_handler.py`) -/

/-- Decimal value of a list of digit characters, as Python `int` parses a
digit string (`"007"` → 7). -/
def natOfDigits (l : List Char) : Nat :=
  l.foldl (fun n c => n * 10 + (c.toNat - 48)) 0

/-- `_extract_numeric_product_id`: `re.sub(r'\D+', '', str(product_id))`
concatenates every digit character of the product id; the result is
parsed as an int when non-empty, else `None`. -/
def extract_numeric_product_id (product_id : String) : Option Nat :=
  let digits := product_id.toList.filter Char.isDigit
  if digits = [] then none else some (natOfDigits digits)

/-- A catalog-mapping value: `{'title','category','brand','rating'}`
(each may be JSON null). -/
structure ApiMeta where
  title : Option PyVal
  category : Option PyVal
  brand : Option PyVal
  rating : Option PyVal
deriving Repr, DecidableEq

/-- Lookup in an integer-keyed association list (the product mapping). -/
def mLookup {α : Type} (l : List (Int × α)) (k : Int) : Option α :=
  match l with
  | [] => none
  | (k', v) :: rest => if k' = k then some v else mLookup rest k

/-- An enriched transaction: the copied record plus the four API fields. -/
structure ETxn where
  base : Txn
  api_category : Option PyVal
  api_brand : Option PyVal
  api_rating : Option PyVal
  api_match : Bool
deriving Repr, DecidableEq

/-- The per-record body of the loop in `enrich_sales_data`. -/
def enrichOne (product_mapping : List (Int × ApiMeta)) (t : Txn) : ETxn :=
  match extract_numeric_product_id (Txn.getStr t.productID) with
  | some num_id =>
      match mLookup product_mapping (num_id : Int) with
      | some info => ETxn.mk t info.category info.brand info.rating true
      | none => ETxn.mk t none none none false
  | none => ETxn.mk t none none none false

/-- `enrich_sales_data(transactions, product_mapping)` (the side-effecting
save of the enriched list is modelled separately by
`save_enriched_data_content`). -/
def enrich_sales_data (transactions : List Txn)
    (product_mapping : List (Int × ApiMeta)) : List ETxn :=
  transactions.map (enrichOne product_mapping)

/-- The header row of the enriched side-file. -/
def enrichedHeader : List String :=
  ["TransactionID", "Date", "ProductID", "ProductName", "Quantity",
   "UnitPrice", "CustomerID", "Region", "API_Category", "API_Brand",
   "API_Rating", "API_Match"]

/-- One data row of the enriched side-file; `none` models the uncaught
exception when `int(qv)`/`float(pv)` fails inside `save_enriched_data`. -/
def enrichedRow (e : ETxn) : Option String := do
  let qv := e.base.quantity.getD (PyVal.vStr "")
  let pv := e.base.unitPrice.getD (PyVal.vStr "")
  let qStr ← if (pyStr qv).trim = "" then some "" else (pyInt qv).map toString
  let pStr ← if (pyStr pv).trim = "" then some ""
             else (pyFloat pv).map PyVal.floatRepr
  some (String.intercalate "|"
    [Txn.getStr e.base.transactionID, Txn.getStr e.base.date,
     Txn.getStr e.base.productID, Txn.getStr e.base.productName,
     qStr, pStr,
     Txn.getStr e.base.customerID, Txn.getStr e.base.region,
     Txn.getStr e.api_category, Txn.getStr e.api_brand,
     Txn.getStr e.api_rating,
     if e.api_match then "True" else "False"])

/-- The exact text `save_enriched_data` writes: the header row written as
`'|'.join(header) + ''` and each data row as `'|'.join(row) + ''` — the
appended string literal in the source is EMPTY (its docstring promises an
explicit newline, but the code appends none). -/
def save_enriched_data_content (enriched_transactions : List ETxn) :
    Option String :=
  (enriched_transactions.mapM enrichedRow).map (fun rows =>
    (String.intercalate "|" enrichedHeader ++ "") ++
      String.join (rows.map (fun r => r ++ "")))

/-- Written from the spec's words (§8, round-trip): split the side-file
content into LF-separated lines, drop trailing empties and the header,
and read back the 12th pipe-separated column of each data line. -/
def reparsedMatchColumn (content : String) : List String :=
  (((content.splitOn "\n").filter (fun l => l ≠ "")).drop 1).map
    (fun line => ((line.splitOn "|").getD 11 ""))

/-! ### `read_sales_data` (`utils/file_handler.py`, lines 44-85) -/

/-- `EXPECTED_HEADERS` from `utils/file_handler.py`. -/
def EXPECTED_HEADERS : List String :=
  ["TransactionID", "Date", "ProductID", "ProductName",
   "Quantity", "UnitPrice", "CustomerID", "Region"]

/-- `_looks_like_header`: exact match after whitespace removal, or at
least 4 of the 8 header names present case-insensitively. -/
def looks_like_header (line : String) : Bool :=
  let s := (line.trim).replace " " ""
  let expected := String.intercalate "|" EXPECTED_HEADERS
  if s = expected then true
  else
    let lowered := line.toLower
    let hits := EXPECTED_HEADERS.countP
      (fun t => decide ((t.toLower).toList.IsInfix lowered.toList))
    decide (4 ≤ hits)

/-- The source's `line.rstrip('')`: Python strips the characters of the
given set, and the set here is empty, so NOTHING is removed (the module
docstring says the intent was `rstrip` of the newline). -/
def rstripEmptySet (line : String) : String := line

/-- `read_sales_data`, from the point where the decoded `raw_lines` are in
hand (encoding selection and the not-found error are I/O, outside the
embedding): strip a leading BOM from the first line, skip leading blank
lines, consume one header-looking line, then keep the
non-blank lines, each passed through `rstrip('')`. -/
def read_sales_data (raw_lines : List String) : List String :=
  let raw1 := match raw_lines with
    | [] => []
    | l0 :: rest => String.mk (l0.toList.dropWhile (fun c => c = '﻿')) :: rest
  let afterBlank := raw1.dropWhile (fun l => l.trim == "")
  let afterHeader := match afterBlank with
    | l :: rest => if looks_like_header l then rest else afterBlank
    | [] => []
  (afterHeader.map rstripEmptySet).filter (fun s => s.trim ≠ "")

/-! ### Report renderer (`utils/reporting.py`) -/

/-- Python `f"{s:>w}"`: left-pad with spaces up to width `w`. -/
def padLeft (s : String) (w : Nat) : String :=
  if s.length < w then String.mk (List.replicate (w - s.length) ' ') ++ s else s

/-- Python `f"{s:<w}"`: right-pad with spaces up to width `w`. -/
def padRight (s : String) (w : Nat) : String :=
  if s.length < w then s ++ String.mk (List.replicate (w - s.length) ' ') else s

/-- Two decimal digits with a leading zero (`7` → `"07"`). -/
def twoDigits (n : Nat) : String :=
  if n < 10 then "0" ++ toString n else toString n

/-- Python `f"{v:.2f}"` (idealized: round-half-even over the rationals). -/
def fixed2 (v : Rat) : String :=
  let n := roundHalfEven (v * 100)
  let a := n.natAbs
  (if n < 0 then "-" else "") ++ toString (a / 100) ++ "." ++ twoDigits (a % 100)

/-- Split a reversed digit list into 3-digit chunks (fuelled). -/
def chunk3 : Nat → List Char → List (List Char)
  | 0, _ => []
  | _, [] => []
  | fuel + 1, l => l.take 3 :: chunk3 fuel (l.drop 3)

/-- Insert thousands separators into a digit string (`"1234567"` →
`"1,234,567"`), as Python's `,` format spec does. -/
def groupThousands (s : String) : String :=
  String.intercalate ","
    (((chunk3 s.length s.toList.reverse).map List.reverse).reverse.map String.mk)

/-- `_fmt_money`: `f"{currency_symbol}{value:,.2f}"`. The `except`
fallback of the source (`f"{currency_symbol}{value}"`) is unreachable
for numeric values, which is all the renderer passes in. -/
def fmt_money (value : Rat) (currency_symbol : String) : String :=
  let n := roundHalfEven (value * 100)
  let a := n.natAbs
  currency_symbol ++ (if n < 0 then "-" else "") ++
    groupThousands (toString (a / 100)) ++ "." ++ twoDigits (a % 100)

/-- Python `min(list)` (first minimum wins) for a non-empty string list. -/
def pyMinStr (d : String) (rest : List String) : String :=
  rest.foldl (fun a b => if b < a then b else a) d

/-- Python `max(list)` (first maximum wins) for a non-empty string list. -/
def pyMaxStr (d : String) (rest : List String) : String :=
  rest.foldl (fun a b => if a < b then b else a) d

/-- Strip a given character from both ends of a string
(Python `s.strip(':')`). -/
def stripChar (c : Char) (s : String) : String :=
  String.mk (((s.toList.dropWhile (fun x => x = c)).reverse.dropWhile
    (fun x => x = c)).reverse)

/-- The 44-character section separator (`'=' * 44`). -/
def sepLine : String := String.mk (List.replicate 44 '=')

/-- The 44-character rule (`'-' * 44`). -/
def dashLine : String := String.mk (List.replicate 44 '-')

/-- The failure label built in the API summary:
`f"{pid}:{pname}".strip(':')`. -/
def notEnrichedLabel (e : ETxn) : String :=
  stripChar ':' (Txn.getStr e.base.productID ++ ":" ++
    Txn.getStr e.base.productName)

/-- The `lines` list assembled by `generate_sales_report`, in source
order. `now` stands for `datetime.now().strftime('%Y-%m-%d %H:%M:%S')`. -/
def generate_sales_report_lines (txns : List Txn) (etxns : List ETxn)
    (now : String) (currency_symbol : String) (low_threshold : Int) :
    List String :=
  let records_processed := txns.length
  let total_revenue := calculate_total_revenue txns
  let total_transactions := txns.length
  let avg_order_value :=
    if total_transactions ≠ 0 then total_revenue / (total_transactions : Rat)
    else 0
  let dates := (txns.map dateKey).filter (fun d => d ≠ "")
  let date_min := match dates with
    | [] => "N/A"
    | d :: rest => pyMinStr d rest
  let date_max := match dates with
    | [] => "N/A"
    | d :: rest => pyMaxStr d rest
  let region_stats := region_wise_sales txns
  let top5_products := top_selling_products txns 5
  let top5_customers := (customer_analysis txns).take 5
  let trend := daily_sales_trend txns
  let peak := find_peak_sales_day txns
  let low_products := low_performing_products txns low_threshold
  let avg_per_region := region_stats.map (fun p =>
    (p.1, if p.2.transaction_count ≠ 0 then
            p.2.total_sales / (p.2.transaction_count : Rat)
          else 0))
  let api_total := etxns.length
  let api_success := etxns.countP (fun e => e.api_match)
  let not_enriched := etxns.filterMap (fun e =>
    if e.api_match then none
    else
      let label := notEnrichedLabel e
      if label ≠ "" then some label else none)
  let api_rate :=
    if api_total ≠ 0 then (api_success : Rat) / (api_total : Rat) * 100
    else 0
  ([sepLine, "SALES ANALYTICS REPORT", "Generated: " ++ now,
    "Records Processed: " ++ toString records_processed, sepLine,
    "OVERALL SUMMARY", dashLine,
    "Total Revenue: " ++ fmt_money total_revenue currency_symbol,
    "Total Transactions: " ++ toString total_transactions,
    "Average Order Value: " ++ fmt_money avg_order_value currency_symbol,
    "Date Range: " ++ date_min ++ " to " ++ date_max,
    "REGION-WISE PERFORMANCE", dashLine,
    padRight "Region" 12 ++ padLeft "Sales" 15 ++ "  " ++
      padLeft "% of Total" 12 ++ "  " ++ padLeft "Transactions" 13] ++
   region_stats.map (fun p =>
     padRight p.1 12 ++ padLeft (fmt_money p.2.total_sales currency_symbol) 15
       ++ "  " ++ padLeft (fixed2 p.2.percentage) 11 ++ "%" ++ "  " ++
       padLeft (toString p.2.transaction_count) 13) ++
   ["TOP 5 PRODUCTS", dashLine,
    padLeft "Rank" 4 ++ "  " ++ padRight "Product Name" 30 ++
      padLeft "Qty" 6 ++ "  " ++ padLeft "Revenue" 15] ++
   (List.enumFrom 1 top5_products).map (fun pr =>
     padLeft (toString pr.1) 4 ++ "  " ++ padRight pr.2.1 30 ++
       padLeft (toString pr.2.2.1) 6 ++ "  " ++
       padLeft (fmt_money pr.2.2.2 currency_symbol) 15) ++
   ["TOP 5 CUSTOMERS", dashLine,
    padLeft "Rank" 4 ++ "  " ++ padRight "Customer ID" 12 ++
      padLeft "Total Spent" 15 ++ "  " ++ padLeft "Order Count" 12] ++
   (List.enumFrom 1 top5_customers).map (fun pr =>
     padLeft (toString pr.1) 4 ++ "  " ++ padRight pr.2.1 12 ++
       padLeft (fmt_money pr.2.2.total_spent currency_symbol) 15 ++ "  " ++
       padLeft (toString pr.2.2.purchase_count) 12) ++
   ["DAILY SALES TREND", dashLine,
    padRight "Date" 12 ++ padLeft "Revenue" 15 ++ "  " ++
      padLeft "Trans" 7 ++ "  " ++ padLeft "Unique Cust." 14] ++
   trend.map (fun p =>
     padRight p.1 12 ++ padLeft (fmt_money p.2.revenue currency_symbol) 15 ++
       "  " ++ padLeft (toString p.2.transaction_count) 7 ++ "  " ++
       padLeft (toString p.2.unique_customers) 14) ++
   ["PRODUCT PERFORMANCE ANALYSIS", dashLine] ++
   [match peak with
    | some pk =>
        "Best Selling Day: " ++ pk.1 ++ "  (Revenue: " ++
          fmt_money pk.2.1 currency_symbol ++ ", Transactions: " ++
          toString pk.2.2 ++ ")"
    | none => "Best Selling Day: N/A"] ++
   (if low_products ≠ [] then
      ["Low Performing Products (< threshold)",
       padRight "Product" 30 ++ padLeft "Qty" 6 ++ "  " ++
         padLeft "Revenue" 15] ++
      low_products.map (fun p =>
        padRight p.1 30 ++ padLeft (toString p.2.1) 6 ++ "  " ++
          padLeft (fmt_money p.2.2 currency_symbol) 15)
    else ["Low Performing Products: None"]) ++
   ["Average Transaction Value per Region",
    padRight "Region" 12 ++ padLeft "Avg Value" 15] ++
   avg_per_region.map (fun p =>
     padRight p.1 12 ++ padLeft (fmt_money p.2 currency_symbol) 15) ++
   ["API ENRICHMENT SUMMARY", dashLine,
    "Total products enriched: " ++ toString api_success ++ " of " ++
      toString api_total,
    "Success rate: " ++ fixed2 api_rate ++ "%"] ++
   (if not_enriched ≠ [] then
      "Products not enriched:" ::
        ((not_enriched.eraseDups.mergeSort (fun a b => decide (a ≤ b))).map
          (fun label => " - " ++ label))
    else
      ["All products enriched successfully (or enrichment not attempted)."]))

/-- What `generate_sales_report` does observably: the text written to
`output_file` and the value handed back to the caller. -/
structure ReportResult where
  written : String
  returned : String
deriving Repr, DecidableEq

/-- `generate_sales_report`: writes
`report_text = "\n".join(lines) + "\n"` to `output_file` and returns
`os.path.abspath(output_file)` (`abspath` is passed in as the model of
`os.path.abspath`). -/
def generate_sales_report (txns : List Txn) (etxns : List ETxn)
    (now : String) (currency_symbol : String) (low_threshold : Int)
    (abspath : String → String) (output_file : String) : ReportResult :=
  ReportResult.mk
    (String.intercalate "\n"
      (generate_sales_report_lines txns etxns now currency_symbol
        low_threshold) ++ "\n")
    (abspath output_file)

/-! ### Validation lemmas (C1) -/

/-- The code's per-record chain and the spec's numbered rules agree on
what is rejected. -/
lemma checkRecord_none_iff (t : Txn) :
    checkRecord t = none ↔ (specFirstFailingRule t).isSome := by
  unfold checkRecord specFirstFailingRule
  by_cases h1 : t.allPresent
  · by_cases h2 : t.anyBlank
    · simp [h1, h2]
    · simp only [h1, h2, not_true, not_false_iff, if_false, if_true,
        Bool.not_eq_true]
      cases hq : t.quantity with
      | none => simp
      | some qv =>
        cases hp : t.unitPrice with
        | none => simp
        | some pv =>
          cases hqi : pyInt qv with
          | none => simp [hqi]
          | some qty =>
            cases hpf : pyFloat pv with
            | none => simp [hqi, hpf]
            | some price =>
              simp only [hqi, hpf]
              by_cases h3 : qty ≤ 0 ∨ price ≤ 0
              · simp [h3]
              · by_cases h4 : (Txn.getStr t.transactionID).startsWith "T" <;>
                  by_cases h5 : (Txn.getStr t.productID).startsWith "P" <;>
                    by_cases h6 : (Txn.getStr t.customerID).startsWith "C" <;>
                      simp [h3, h4, h5, h6]
  · simp [h1]

/-- The validation loop counts one increment of `invalid` per record whose
spec-ordered first failing rule exists. -/
lemma firstPass_count :
    ∀ ts : List Txn,
      (firstPass ts).2 =
        (ts.filter (fun t => (specFirstFailingRule t).isSome)).length
  | [] => by simp [firstPass]
  | t :: ts => by
      have ih := firstPass_count ts
      by_cases h : checkRecord t = none
      · have hs : (specFirstFailingRule t).isSome := (checkRecord_none_iff t).mp h
        simp [firstPass, h, hs, ih]
      · have hs : ¬ (specFirstFailingRule t).isSome := by
          intro hc
          exact h ((checkRecord_none_iff t).mpr hc)
        rcases Option.ne_none_iff_exists.mp h with ⟨v, hv⟩
        simp [firstPass, ← hv, hs, ih]

/-- Appending one rejected record to the input leaves the accepted list
unchanged and bumps the invalid counter by one. -/
lemma firstPass_append_none (bad : Txn) (h : checkRecord bad = none) :
    ∀ ts : List Txn,
      firstPass (ts ++ [bad]) = ((firstPass ts).1, (firstPass ts).2 + 1)
  | [] => by simp [firstPass, h]
  | t :: ts => by
      have ih := firstPass_append_none bad h ts
      cases hcr : checkRecord t <;> simp [firstPass, hcr, ih]

/-- What C1 asserts of each of its three concrete rejected records:
appending it to any input increases `invalid` (and `total_input`) by
exactly one and leaves the valid list, both filter counters and the final
count unchanged. -/
def appendInvalidOne (bad : Txn) (ts : List Txn) (region : Option String)
    (mi ma : Option Rat) : Prop :=
  let o := validate_and_filter ts region mi ma
  let o' := validate_and_filter (ts ++ [bad]) region mi ma
  o'.1 = o.1 ∧ o'.2.1 = o.2.1 + 1 ∧
  o'.2.2.total_input = o.2.2.total_input + 1 ∧
  o'.2.2.invalid = o.2.2.invalid + 1 ∧
  o'.2.2.filtered_by_region = o.2.2.filtered_by_region ∧
  o'.2.2.filtered_by_amount = o.2.2.filtered_by_amount ∧
  o'.2.2.final_count = o.2.2.final_count

lemma appendInvalidOne_of_none (bad : Txn) (h : checkRecord bad = none)
    (ts : List Txn) (region : Option String) (mi ma : Option Rat) :
    appendInvalidOne bad ts region mi ma := by
  unfold appendInvalidOne validate_and_filter
  rw [firstPass_append_none bad h ts]
  refine ⟨rfl, rfl, by simp, rfl, rfl, rfl, rfl⟩

set_option maxRecDepth 40000

/-- C1's record with `Quantity=0` (all fields present and non-blank,
quantity convertible but not positive: rule 3 fires). -/
def badQtyZero : Txn :=
  ⟨some (PyVal.vStr "T90"), some (PyVal.vStr "2024-01-05"),
   some (PyVal.vStr "P90"), some (PyVal.vStr "Gizmo"),
   some (PyVal.vInt 0), some (PyVal.vFloat 5),
   some (PyVal.vStr "C90"), some (PyVal.vStr "West")⟩

/-- C1's record whose `CustomerID` does not start with `C` (rule 4c). -/
def badCustPrefix : Txn :=
  ⟨some (PyVal.vStr "T91"), some (PyVal.vStr "2024-01-05"),
   some (PyVal.vStr "P91"), some (PyVal.vStr "Gizmo"),
   some (PyVal.vInt 2), some (PyVal.vFloat 5),
   some (PyVal.vStr "X91"), some (PyVal.vStr "West")⟩

/-- C1's record missing the `Region` field entirely (rule 1). -/
def badMissingRegion : Txn :=
  ⟨some (PyVal.vStr "T92"), some (PyVal.vStr "2024-01-05"),
   some (PyVal.vStr "P92"), some (PyVal.vStr "Gizmo"),
   some (PyVal.vInt 2), some (PyVal.vFloat 5),
   some (PyVal.vStr "C92"), none⟩

/-- C1: `validate_and_filter` rejects a record exactly when the
spec-ordered rule chain (1: missing field, 2: blank field, 3: numeric
failure or non-positive quantity/price, 4: `T`/`P`/`C` prefixes in that
order) finds a first failing rule, incrementing `invalid` once per
rejected record; appending the `Quantity=0` record, the `CustomerID`
non-`C` record, or the missing-`Region` record to any input bumps
`invalid` (and `total_input`) by exactly one and leaves the valid list,
both filter counters and the final count unchanged. -/
theorem validate_and_filter_rejects_at_first_failing_rule
    (ts : List Txn) (region : Option String) (mi ma : Option Rat) :
    (validate_and_filter ts region mi ma).2.1 =
      (ts.filter (fun t => (specFirstFailingRule t).isSome)).length
    ∧ (∀ t : Txn, checkRecord t = none ↔ (specFirstFailingRule t).isSome)
    ∧ appendInvalidOne badQtyZero ts region mi ma
    ∧ appendInvalidOne badCustPrefix ts region mi ma
    ∧ appendInvalidOne badMissingRegion ts region mi ma := by
  refine ⟨?_, checkRecord_none_iff,
    appendInvalidOne_of_none _ (by with_unfolding_all decide) ts region mi ma,
    appendInvalidOne_of_none _ (by with_unfolding_all decide) ts region mi ma,
    appendInvalidOne_of_none _ (by with_unfolding_all decide) ts region mi ma⟩
  simpa [validate_and_filter] using firstPass_count ts

/-! ### Dict lemmas: lookups, keys and sums of the grouping folds -/

section DictLemmas

variable {α : Type}

lemma dKeys_cons (p : String × α) (l : List (String × α)) :
    dKeys (p :: l) = p.1 :: dKeys l := rfl

lemma dLookup_dUpdate (l : List (String × α)) (k k' : String) (f : α → α)
    (dflt : α) :
    dLookup (dUpdate l k f dflt) k' =
      if k = k' then some (f (dGetD l k dflt)) else dLookup l k' := by
  induction l with
  | nil => by_cases h : k = k' <;> simp [dUpdate, dLookup, dGetD, h]
  | cons p rest ih =>
      obtain ⟨k₀, v⟩ := p
      by_cases h0 : k₀ = k
      · subst h0
        by_cases h : k₀ = k' <;> simp [dUpdate, dLookup, dGetD, h, ih]
      · by_cases h : k₀ = k'
        · subst h
          have hne : ¬ k = k₀ := fun hc => h0 hc.symm
          simp [dUpdate, dLookup, dGetD, h0, hne, ih]
        · simp [dUpdate, dLookup, dGetD, h0, h, ih]

/-- The value a grouping fold accumulates at key `k`: all matching
records applied, in order, on top of `v`. -/
def applyUpds (key : Txn → String) (upd : Txn → α → α) (k : String)
    (ts : List Txn) (v : α) : α :=
  (ts.filter (fun t => key t == k)).foldl (fun a t => upd t a) v

lemma dLookup_foldl_dUpdate (key : Txn → String) (upd : Txn → α → α)
    (dflt : α) :
    ∀ (ts : List Txn) (acc : List (String × α)) (k : String),
      dLookup (ts.foldl (fun d t => dUpdate d (key t) (upd t) dflt) acc) k =
        match dLookup acc k with
        | some v => some (applyUpds key upd k ts v)
        | none =>
            if ts.any (fun t => key t == k) then
              some (applyUpds key upd k ts dflt)
            else none
  | [], acc, k => by
      cases h : dLookup acc k <;> simp [h, applyUpds]
  | t :: ts, acc, k => by
      have ih := dLookup_foldl_dUpdate key upd dflt ts
        (dUpdate acc (key t) (upd t) dflt) k
      simp only [List.foldl_cons] at ih ⊢
      rw [ih, dLookup_dUpdate]
      by_cases hk : key t = k
      · cases h : dLookup acc k with
        | some v =>
            have hv : dGetD acc k dflt = v := by simp [dGetD, h]
            simp [hk, h, hv, applyUpds]
        | none =>
            have hv : dGetD acc k dflt = dflt := by simp [dGetD, h]
            simp [hk, h, hv, applyUpds]
      · have hne : (key t == k) = false := by simp [hk]
        cases h : dLookup acc k with
        | some v => simp [hk, h, applyUpds, hne]
        | none => simp [hk, h, applyUpds, hne]

lemma dKeys_dUpdate (l : List (String × α)) (k : String) (f : α → α)
    (dflt : α) :
    dKeys (dUpdate l k f dflt) =
      if k ∈ dKeys l then dKeys l else dKeys l ++ [k] := by
  induction l with
  | nil => simp [dUpdate, dKeys]
  | cons p rest ih =>
      obtain ⟨k₀, v⟩ := p
      by_cases h0 : k₀ = k
      · subst h0
        simp [dUpdate, dKeys_cons]
      · have hne : k ≠ k₀ := fun hc => h0 hc.symm
        by_cases hm : k ∈ dKeys rest <;>
          simp [dUpdate, h0, dKeys_cons, ih, hm, hne]

lemma nodup_dKeys_dUpdate (l : List (String × α)) (k : String) (f : α → α)
    (dflt : α) (h : (dKeys l).Nodup) :
    (dKeys (dUpdate l k f dflt)).Nodup := by
  rw [dKeys_dUpdate]
  by_cases hm : k ∈ dKeys l
  · simpa [hm]
  · simp only [hm, if_false]
    refine List.Nodup.append h (List.nodup_singleton k) ?_
    simpa using fun hc => hm hc

lemma nodup_dKeys_foldl (key : Txn → String) (upd : Txn → α → α)
    (dflt : α) :
    ∀ (ts : List Txn) (acc : List (String × α)),
      (dKeys acc).Nodup →
      (dKeys (ts.foldl (fun d t => dUpdate d (key t) (upd t) dflt) acc)).Nodup
  | [], _, h => h
  | t :: ts, acc, h => by
      simp only [List.foldl_cons]
      exact nodup_dKeys_foldl key upd dflt ts _
        (nodup_dKeys_dUpdate acc (key t) (upd t) dflt h)

lemma mem_of_dLookup_eq_some {l : List (String × α)} {k : String} {v : α}
    (h : dLookup l k = some v) : (k, v) ∈ l := by
  induction l with
  | nil => simp [dLookup] at h
  | cons p rest ih =>
      obtain ⟨k₀, v₀⟩ := p
      by_cases h0 : k₀ = k
      · subst h0
        simp [dLookup] at h
        simp [h]
      · simp [dLookup, h0] at h
        exact List.mem_cons_of_mem _ (ih h)

lemma dLookup_eq_some_of_mem {l : List (String × α)} {k : String} {v : α}
    (hnd : (dKeys l).Nodup) (h : (k, v) ∈ l) : dLookup l k = some v := by
  induction l with
  | nil => simp at h
  | cons p rest ih =>
      obtain ⟨k₀, v₀⟩ := p
      rw [dKeys_cons] at hnd
      rcases List.mem_cons.mp h with heq | hmem
      · cases heq
        simp [dLookup]
      · have hk0 : k₀ ∉ dKeys rest := (List.nodup_cons.mp hnd).1
        have h0 : k₀ ≠ k := by
          intro hc
          subst hc
          exact hk0 (by simpa [dKeys] using List.mem_map_of_mem Prod.fst hmem)
        simp only [dLookup, if_neg h0]
        exact ih (List.nodup_cons.mp hnd).2 hmem

lemma dLookup_isSome_iff_mem_keys (l : List (String × α)) (k : String) :
    (dLookup l k).isSome ↔ k ∈ dKeys l := by
  induction l with
  | nil => simp [dLookup, dKeys]
  | cons p rest ih =>
      obtain ⟨k₀, v₀⟩ := p
      by_cases h0 : k₀ = k
      · subst h0
        simp [dLookup, dKeys_cons]
      · have hne : k ≠ k₀ := fun hc => h0 hc.symm
        simp [dLookup, dKeys_cons, h0, hne, ih]

end DictLemmas

section SumLemmas

variable {M : Type} [AddCommMonoid M]

lemma foldl_add_eq (g : Txn → M) :
    ∀ (l : List Txn) (v : M),
      l.foldl (fun a t => a + g t) v = v + (l.map g).sum
  | [], v => by simp
  | t :: l, v => by
      simp [foldl_add_eq g l (v + g t), add_assoc]

lemma sum_dUpdate_add (l : List (String × M)) (k : String) (c : M) :
    ((dUpdate l k (fun x => x + c) 0).map Prod.snd).sum =
      (l.map Prod.snd).sum + c := by
  induction l with
  | nil => simp [dUpdate]
  | cons p rest ih =>
      obtain ⟨k₀, v⟩ := p
      by_cases h0 : k₀ = k
      · subst h0
        simp [dUpdate, add_right_comm, add_assoc]
      · simp [dUpdate, h0, ih, add_assoc]

lemma sum_foldl_dUpdate_add (key : Txn → String) (val : Txn → M) :
    ∀ (ts : List Txn) (acc : List (String × M)),
      (((ts.foldl
          (fun d t => dUpdate d (key t) (fun x => x + val t) 0) acc)).map
            Prod.snd).sum =
        (acc.map Prod.snd).sum + (ts.map val).sum
  | [], acc => by simp
  | t :: ts, acc => by
      simp only [List.foldl_cons, List.map_cons, List.sum_cons]
      rw [sum_foldl_dUpdate_add key val ts _, sum_dUpdate_add, add_assoc]

end SumLemmas

/-! ### C2: total revenue and the region-wise sum -/

/-- Spec-side well-typedness: `Quantity` holds an int, `UnitPrice` a
float — what every record that came through `parse_transactions` or
`validate_and_filter` satisfies. -/
def numericFields (t : Txn) : Prop :=
  (∃ q : Int, t.quantity = some (PyVal.vInt q)) ∧
  (∃ p : Rat, t.unitPrice = some (PyVal.vFloat p))

/-- The integer content of the `Quantity` field (0 when not an int). -/
def qtyVal (t : Txn) : Rat :=
  match t.quantity with
  | some (PyVal.vInt n) => (n : Rat)
  | _ => 0

/-- The float content of the `UnitPrice` field (0 when not a float). -/
def priceVal (t : Txn) : Rat :=
  match t.unitPrice with
  | some (PyVal.vFloat q) => q
  | _ => 0

lemma pyAmount_eq_of_numeric {t : Txn} (h : numericFields t) :
    pyAmount t = qtyVal t * priceVal t := by
  obtain ⟨⟨q, hq⟩, ⟨p, hp⟩⟩ := h
  simp [pyAmount, qtyVal, priceVal, hq, hp, pyInt, pyFloat]

lemma calculate_total_revenue_eq_sum (ts : List Txn) :
    calculate_total_revenue ts = (ts.map pyAmount).sum := by
  simpa [calculate_total_revenue] using foldl_add_eq pyAmount ts 0

lemma map_total_sales_mk (totals : List (String × Rat))
    (g : String × Rat → Nat) (h : String × Rat → Rat) :
    ((totals.map (fun p => (p.1, RegionStats.mk p.2 (g p) (h p)))).map
        (fun p => p.2.total_sales)) =
      totals.map Prod.snd := by
  rw [List.map_map]
  apply List.map_congr_left
  intro p _
  rfl

/-- C2: `calculate_total_revenue` is the sum of per-record
`Quantity × UnitPrice` (for records with numeric fields, as all
validated records are), and the `total_sales` of the groups returned by
`region_wise_sales` sum to exactly that total — exact over the
rationals, which is the idealization of the floating-point
tolerance the spec allows. -/
theorem total_revenue_eq_sum_and_region_split (ts : List Txn) :
    ((∀ t ∈ ts, numericFields t) →
      calculate_total_revenue ts =
        (ts.map (fun t => qtyVal t * priceVal t)).sum)
    ∧ ((region_wise_sales ts).map (fun p => p.2.total_sales)).sum =
        calculate_total_revenue ts := by
  constructor
  · intro h
    rw [calculate_total_revenue_eq_sum]
    exact congrArg List.sum
      (List.map_congr_left (fun t ht => pyAmount_eq_of_numeric (h t ht)))
  · unfold region_wise_sales
    rw [List.Perm.sum_eq (List.Perm.map _ (List.mergeSort_perm _ _))]
    rw [map_total_sales_mk]
    rw [sum_foldl_dUpdate_add regionKey pyAmount ts []]
    simp [calculate_total_revenue_eq_sum]

/-- A demo valid record (`T1|2024-01-02|P100|Widget|2|10.0|C1|North`). -/
def sampleA : Txn :=
  ⟨some (PyVal.vStr "T1"), some (PyVal.vStr "2024-01-02"),
   some (PyVal.vStr "P100"), some (PyVal.vStr "Widget"),
   some (PyVal.vInt 2), some (PyVal.vFloat 10),
   some (PyVal.vStr "C1"), some (PyVal.vStr "North")⟩

/-- A second demo record (`T2|2024-01-02|P101|Gadget|3|10.0|C1|South`). -/
def sampleB : Txn :=
  ⟨some (PyVal.vStr "T2"), some (PyVal.vStr "2024-01-02"),
   some (PyVal.vStr "P101"), some (PyVal.vStr "Gadget"),
   some (PyVal.vInt 3), some (PyVal.vFloat 10),
   some (PyVal.vStr "C1"), some (PyVal.vStr "South")⟩

/-- A third demo record (`T3|2024-01-01|P100|Widget|4|10.0|C2|North`),
blank customer id. -/
def sampleC : Txn :=
  ⟨some (PyVal.vStr "T3"), some (PyVal.vStr "2024-01-01"),
   some (PyVal.vStr "P100"), some (PyVal.vStr "Widget"),
   some (PyVal.vInt 4), some (PyVal.vFloat 10),
   some (PyVal.vStr " "), some (PyVal.vStr "North")⟩

/-- Witness for C2 at a concrete record list. -/
theorem total_revenue_witness :
    (∀ t ∈ [sampleA, sampleB], numericFields t) ∧
    calculate_total_revenue [sampleA, sampleB] =
      ([sampleA, sampleB].map (fun t => qtyVal t * priceVal t)).sum ∧
    ((region_wise_sales [sampleA, sampleB]).map
      (fun p => p.2.total_sales)).sum =
        calculate_total_revenue [sampleA, sampleB] := by
  have hn : ∀ t ∈ [sampleA, sampleB], numericFields t := by
    intro t ht
    rcases List.mem_cons.mp ht with h | h
    · subst h
      exact ⟨⟨2, rfl⟩, ⟨10, rfl⟩⟩
    · rcases List.mem_cons.mp h with h2 | h2
      · subst h2
        exact ⟨⟨3, rfl⟩, ⟨10, rfl⟩⟩
      · simp at h2
  have H := total_revenue_eq_sum_and_region_split [sampleA, sampleB]
  exact ⟨hn, H.1 hn, H.2⟩

/-! ### C5 / C6: product aggregation, ordering and truncation -/

/-- Spec-side aggregated quantity of the product group `name`. -/
def sumQtyOf (ts : List Txn) (name : String) : Int :=
  ((ts.filter (fun t => prodKey t == name)).map prodQty).sum

/-- Spec-side aggregated revenue of the product group `name`. -/
def sumRevOf (ts : List Txn) (name : String) : Rat :=
  ((ts.filter (fun t => prodKey t == name)).map pyAmount).sum

lemma dLookup_prodQtyDict (ts : List Txn) (name : String) :
    dLookup (prodQtyDict ts) name =
      if ts.any (fun t => prodKey t == name) then some (sumQtyOf ts name)
      else none := by
  have h := dLookup_foldl_dUpdate prodKey (fun t x => x + prodQty t) 0 ts []
    name
  simp only [dLookup] at h
  rw [prodQtyDict, h]
  simp [applyUpds, foldl_add_eq, sumQtyOf]

lemma dLookup_prodRevDict (ts : List Txn) (name : String) :
    dLookup (prodRevDict ts) name =
      if ts.any (fun t => prodKey t == name) then some (sumRevOf ts name)
      else none := by
  have h := dLookup_foldl_dUpdate prodKey (fun t x => x + pyAmount t) 0 ts []
    name
  simp only [dLookup] at h
  rw [prodRevDict, h]
  simp [applyUpds, foldl_add_eq, sumRevOf]

lemma nodup_prodQtyDict (ts : List Txn) : (dKeys (prodQtyDict ts)).Nodup :=
  nodup_dKeys_foldl prodKey (fun t x => x + prodQty t) 0 ts []
    (by simp [dKeys])

lemma mem_prodQtyDict_iff (ts : List Txn) (p : String × Int) :
    p ∈ prodQtyDict ts ↔
      ts.any (fun t => prodKey t == p.1) ∧ p.2 = sumQtyOf ts p.1 := by
  constructor
  · intro h
    have hl := dLookup_eq_some_of_mem (nodup_prodQtyDict ts) h
    rw [dLookup_prodQtyDict] at hl
    by_cases ha : ts.any (fun t => prodKey t == p.1)
    · simp [ha] at hl
      exact ⟨ha, hl.symm⟩
    · simp [ha] at hl
  · rintro ⟨ha, hv⟩
    have : dLookup (prodQtyDict ts) p.1 = some p.2 := by
      rw [dLookup_prodQtyDict]
      simp [ha, hv]
    exact mem_of_dLookup_eq_some this

lemma dGetD_prodRevDict (ts : List Txn) (name : String)
    (h : ts.any (fun t => prodKey t == name)) :
    dGetD (prodRevDict ts) name 0 = sumRevOf ts name := by
  simp [dGetD, dLookup_prodRevDict, h]

lemma leTop_trans (a b c : String × Int × Rat)
    (h₁ : (decide (b.2.1 < a.2.1) ||
      (decide (a.2.1 = b.2.1) && decide (b.2.2 ≤ a.2.2))) = true)
    (h₂ : (decide (c.2.1 < b.2.1) ||
      (decide (b.2.1 = c.2.1) && decide (c.2.2 ≤ b.2.2))) = true) :
    (decide (c.2.1 < a.2.1) ||
      (decide (a.2.1 = c.2.1) && decide (c.2.2 ≤ a.2.2))) = true := by
  simp only [Bool.or_eq_true, Bool.and_eq_true, decide_eq_true_eq] at h₁ h₂ ⊢
  rcases h₁ with h₁ | ⟨h₁e, h₁r⟩ <;> rcases h₂ with h₂ | ⟨h₂e, h₂r⟩
  · exact Or.inl (lt_trans h₂ h₁)
  · exact Or.inl (h₂e ▸ h₁)
  · exact Or.inl (h₁e ▸ h₂)
  · exact Or.inr ⟨h₁e.trans h₂e, le_trans h₂r h₁r⟩

lemma leTop_total (a b : String × Int × Rat) :
    ((decide (b.2.1 < a.2.1) ||
      (decide (a.2.1 = b.2.1) && decide (b.2.2 ≤ a.2.2))) ||
     (decide (a.2.1 < b.2.1) ||
      (decide (b.2.1 = a.2.1) && decide (a.2.2 ≤ b.2.2)))) = true := by
  simp only [Bool.or_eq_true, Bool.and_eq_true, decide_eq_true_eq]
  rcases lt_trichotomy a.2.1 b.2.1 with h | h | h
  · exact Or.inr (Or.inl h)
  · rcases le_total a.2.2 b.2.2 with hr | hr
    · exact Or.inr (Or.inr ⟨h.symm, hr⟩)
    · exact Or.inl (Or.inr ⟨h, hr⟩)
  · exact Or.inl (Or.inl h)

lemma leLow_trans (a b c : String × Int × Rat)
    (h₁ : (decide (a.2.1 < b.2.1) ||
      (decide (a.2.1 = b.2.1) && (decide (a.2.2 < b.2.2) ||
        (decide (a.2.2 = b.2.2) && decide (a.1 ≤ b.1))))) = true)
    (h₂ : (decide (b.2.1 < c.2.1) ||
      (decide (b.2.1 = c.2.1) && (decide (b.2.2 < c.2.2) ||
        (decide (b.2.2 = c.2.2) && decide (b.1 ≤ c.1))))) = true) :
    (decide (a.2.1 < c.2.1) ||
      (decide (a.2.1 = c.2.1) && (decide (a.2.2 < c.2.2) ||
        (decide (a.2.2 = c.2.2) && decide (a.1 ≤ c.1))))) = true := by
  simp only [Bool.or_eq_true, Bool.and_eq_true, decide_eq_true_eq] at h₁ h₂ ⊢
  rcases h₁ with h₁ | ⟨h₁e, h₁r⟩ <;> rcases h₂ with h₂ | ⟨h₂e, h₂r⟩
  · exact Or.inl (lt_trans h₁ h₂)
  · exact Or.inl (h₂e ▸ h₁)
  · exact Or.inl (h₁e ▸ h₂)
  · refine Or.inr ⟨h₁e.trans h₂e, ?_⟩
    rcases h₁r with h₁r | ⟨h₁re, h₁rn⟩ <;> rcases h₂r with h₂r | ⟨h₂re, h₂rn⟩
    · exact Or.inl (lt_trans h₁r h₂r)
    · exact Or.inl (h₂re ▸ h₁r)
    · exact Or.inl (h₁re ▸ h₂r)
    · exact Or.inr ⟨h₁re.trans h₂re, le_trans h₁rn h₂rn⟩

lemma leLow_total (a b : String × Int × Rat) :
    ((decide (a.2.1 < b.2.1) ||
      (decide (a.2.1 = b.2.1) && (decide (a.2.2 < b.2.2) ||
        (decide (a.2.2 = b.2.2) && decide (a.1 ≤ b.1))))) ||
     (decide (b.2.1 < a.2.1) ||
      (decide (b.2.1 = a.2.1) && (decide (b.2.2 < a.2.2) ||
        (decide (b.2.2 = a.2.2) && decide (b.1 ≤ a.1)))))) = true := by
  simp only [Bool.or_eq_true, Bool.and_eq_true, decide_eq_true_eq]
  rcases lt_trichotomy a.2.1 b.2.1 with h | h | h
  · exact Or.inl (Or.inl h)
  · rcases lt_trichotomy a.2.2 b.2.2 with hr | hr | hr
    · exact Or.inl (Or.inr ⟨h, Or.inl hr⟩)
    · rcases le_total a.1 b.1 with hn | hn
      · exact Or.inl (Or.inr ⟨h, Or.inr ⟨hr, hn⟩⟩)
      · exact Or.inr (Or.inr ⟨h.symm, Or.inr ⟨hr.symm, hn⟩⟩)
    · exact Or.inr (Or.inr ⟨h.symm, Or.inl hr⟩)
  · exact Or.inr (Or.inl h)

lemma mem_prodRows_iff (ts : List Txn) (x : String × Int × Rat) :
    x ∈ (prodQtyDict ts).map
        (fun p => (p.1, p.2, dGetD (prodRevDict ts) p.1 0)) ↔
      (∃ t ∈ ts, prodKey t = x.1) ∧ x.2.1 = sumQtyOf ts x.1 ∧
        x.2.2 = sumRevOf ts x.1 := by
  rw [List.mem_map]
  constructor
  · rintro ⟨p, hp, rfl⟩
    rcases (mem_prodQtyDict_iff ts p).mp hp with ⟨hany, hval⟩
    have hex : ∃ t ∈ ts, prodKey t = p.1 := by
      simpa using List.any_eq_true.mp hany
    exact ⟨hex, hval, dGetD_prodRevDict ts p.1 hany⟩
  · rintro ⟨hex, hq, hr⟩
    have hany : ts.any (fun t => prodKey t == x.1) = true := by
      simp only [List.any_eq_true, beq_iff_eq]
      simpa using hex
    refine ⟨(x.1, x.2.1), ?_, ?_⟩
    · exact (mem_prodQtyDict_iff ts (x.1, x.2.1)).mpr ⟨hany, hq⟩
    · rw [dGetD_prodRevDict ts x.1 hany, ← hr]

/-- C5: `top_selling_products` groups by product name (blank →
`"Unknown"`, which is what `prodKey` returns), yields at most `n`
entries, sorted by quantity descending then revenue descending, and
yields the empty list whenever `n ≤ 0`. -/
theorem top_selling_products_spec (ts : List Txn) (n : Int) :
    (top_selling_products ts n).length ≤ n.toNat
    ∧ (n ≤ 0 → top_selling_products ts n = [])
    ∧ List.Pairwise
        (fun a b => b.2.1 < a.2.1 ∨ (a.2.1 = b.2.1 ∧ b.2.2 ≤ a.2.2))
        (top_selling_products ts n)
    ∧ (∀ x ∈ top_selling_products ts n,
        (∃ t ∈ ts, prodKey t = x.1) ∧ x.2.1 = sumQtyOf ts x.1 ∧
          x.2.2 = sumRevOf ts x.1) := by
  have hmax : (max n 0).toNat = n.toNat := by omega
  refine ⟨?_, ?_, ?_, ?_⟩
  · calc (top_selling_products ts n).length
        ≤ (max n 0).toNat := by
          simp only [top_selling_products]
          exact List.length_take_le (max n 0).toNat _
      _ = n.toNat := hmax
  · intro hn
    have h0 : (max n 0).toNat = 0 := by omega
    simp [top_selling_products, h0]
  · have hs := @List.sorted_mergeSort _
      (fun (a b : String × Int × Rat) =>
        decide (b.2.1 < a.2.1) ||
          (decide (a.2.1 = b.2.1) && decide (b.2.2 ≤ a.2.2)))
      (fun a b c => leTop_trans a b c) (fun a b => leTop_total a b)
      ((prodQtyDict ts).map
        (fun p => (p.1, p.2, dGetD (prodRevDict ts) p.1 0)))
    have hsp : List.Pairwise
        (fun (a b : String × Int × Rat) =>
          b.2.1 < a.2.1 ∨ (a.2.1 = b.2.1 ∧ b.2.2 ≤ a.2.2))
        (((prodQtyDict ts).map
          (fun p => (p.1, p.2, dGetD (prodRevDict ts) p.1 0))).mergeSort
            (fun a b => decide (b.2.1 < a.2.1) ||
              (decide (a.2.1 = b.2.1) && decide (b.2.2 ≤ a.2.2)))) := by
      refine hs.imp ?_
      intro a b hab
      simpa only [Bool.or_eq_true, Bool.and_eq_true, decide_eq_true_eq]
        using hab
    exact List.Pairwise.sublist (List.take_sublist _ _) hsp
  · intro x hx
    have hx' : x ∈ ((prodQtyDict ts).map
        (fun p => (p.1, p.2, dGetD (prodRevDict ts) p.1 0))).mergeSort
          (fun a b => decide (b.2.1 < a.2.1) ||
            (decide (a.2.1 = b.2.1) && decide (b.2.2 ≤ a.2.2))) :=
      List.take_subset _ _ hx
    have hmem := (List.mergeSort_perm _ _).mem_iff.mp hx'
    exact (mem_prodRows_iff ts x).mp hmem

/-- Witness for C5 at a concrete record list and both a positive and a
non-positive `n`. -/
theorem top_selling_products_witness :
    top_selling_products [sampleA, sampleB, sampleC] 0 = [] ∧
    (top_selling_products [sampleA, sampleB, sampleC] 2).length ≤ 2 := by
  constructor
  · exact (top_selling_products_spec [sampleA, sampleB, sampleC] 0).2.1
      (by norm_num)
  · exact (top_selling_products_spec [sampleA, sampleB, sampleC] 2).1

lemma mem_lowRows_iff (ts : List Txn) (th : Int) (x : String × Int × Rat) :
    x ∈ ((prodQtyDict ts).filter (fun p => decide (p.2 < th))).map
        (fun p => (p.1, p.2, dGetD (prodRevDict ts) p.1 0)) ↔
      (∃ t ∈ ts, prodKey t = x.1) ∧ x.2.1 = sumQtyOf ts x.1 ∧
        x.2.2 = sumRevOf ts x.1 ∧ x.2.1 < th := by
  obtain ⟨nm, q, r⟩ := x
  rw [List.mem_map]
  constructor
  · rintro ⟨p, hp, heq⟩
    rw [List.mem_filter] at hp
    obtain ⟨hpm, hplt⟩ := hp
    rcases (mem_prodQtyDict_iff ts p).mp hpm with ⟨hany, hval⟩
    obtain ⟨rfl, rfl, rfl⟩ : p.1 = nm ∧ p.2 = q ∧
        dGetD (prodRevDict ts) p.1 0 = r := by
      refine ⟨congrArg Prod.fst heq, ?_, ?_⟩
      · exact congrArg (fun y => y.2.1) heq
      · exact congrArg (fun y => y.2.2) heq
    have hex : ∃ t ∈ ts, prodKey t = p.1 := by
      simpa using List.any_eq_true.mp hany
    exact ⟨hex, hval, dGetD_prodRevDict ts p.1 hany,
      by simpa using of_decide_eq_true hplt⟩
  · rintro ⟨hex, hq, hr, hlt⟩
    have hany : ts.any (fun t => prodKey t == nm) = true := by
      simp only [List.any_eq_true, beq_iff_eq]
      simpa using hex
    refine ⟨(nm, q), ?_, ?_⟩
    · rw [List.mem_filter]
      exact ⟨(mem_prodQtyDict_iff ts (nm, q)).mpr ⟨hany, hq⟩,
        by simpa using hlt⟩
    · simp only
      rw [dGetD_prodRevDict ts nm hany]
      simp at hr
      rw [hr]

/-- C6: `low_performing_products` contains exactly the product groups
whose aggregated quantity is strictly below the threshold, sorted by
(quantity asc, revenue asc, name asc); hence it never contains a group
with aggregated quantity ≥ the threshold, and the result at a smaller
threshold is contained in the result at a larger one. -/
theorem low_performing_products_spec (ts : List Txn) (th : Int) :
    (∀ x : String × Int × Rat,
      x ∈ low_performing_products ts th ↔
        ((∃ t ∈ ts, prodKey t = x.1) ∧ x.2.1 = sumQtyOf ts x.1 ∧
          x.2.2 = sumRevOf ts x.1 ∧ x.2.1 < th))
    ∧ List.Pairwise
        (fun a b => a.2.1 < b.2.1 ∨ (a.2.1 = b.2.1 ∧
          (a.2.2 < b.2.2 ∨ (a.2.2 = b.2.2 ∧ a.1 ≤ b.1))))
        (low_performing_products ts th)
    ∧ (∀ th2 : Int, th ≤ th2 →
        ∀ x ∈ low_performing_products ts th,
          x ∈ low_performing_products ts th2) := by
  have hmem : ∀ (th' : Int) (x : String × Int × Rat),
      x ∈ low_performing_products ts th' ↔
        ((∃ t ∈ ts, prodKey t = x.1) ∧ x.2.1 = sumQtyOf ts x.1 ∧
          x.2.2 = sumRevOf ts x.1 ∧ x.2.1 < th') := by
    intro th' x
    unfold low_performing_products
    exact (List.mergeSort_perm _ _).mem_iff.trans (mem_lowRows_iff ts th' x)
  refine ⟨hmem th, ?_, ?_⟩
  · have hs := @List.sorted_mergeSort _
      (fun (a b : String × Int × Rat) =>
        decide (a.2.1 < b.2.1) ||
          (decide (a.2.1 = b.2.1) && (decide (a.2.2 < b.2.2) ||
            (decide (a.2.2 = b.2.2) && decide (a.1 ≤ b.1)))))
      (fun a b c => leLow_trans a b c) (fun a b => leLow_total a b)
      (((prodQtyDict ts).filter (fun p => decide (p.2 < th))).map
        (fun p => (p.1, p.2, dGetD (prodRevDict ts) p.1 0)))
    unfold low_performing_products
    refine hs.imp ?_
    intro a b hab
    simpa only [Bool.or_eq_true, Bool.and_eq_true, decide_eq_true_eq]
      using hab
  · intro th2 hth x hx
    rcases (hmem th x).mp hx with ⟨hex, hq, hr, hlt⟩
    exact (hmem th2 x).mpr ⟨hex, hq, hr, lt_of_lt_of_le hlt hth⟩

/-- Witness for C6: the concrete group `("Gadget", 3, 30)` sits in the
threshold-10 result, and monotonicity pushes it into the threshold-20
result. -/
theorem low_performing_products_witness :
    ("Gadget", (3 : Int), (30 : Rat)) ∈
      low_performing_products [sampleA, sampleB, sampleC] 20 := by
  refine (low_performing_products_spec [sampleA, sampleB, sampleC] 10).2.2
    20 (by norm_num) _ ?_
  with_unfolding_all decide

/-! ### C7 / C10: the daily trend and the peak day -/

/-- The set-insertion step of the `_custs` dedup list. -/
def addNew (s : List String) (c : String) : List String :=
  if c ∉ s then s ++ [c] else s

lemma dailyAcc_eq_filter (ts : List Txn) :
    dailyAcc ts =
      (ts.filter (fun t => !(dateKey t == ""))).foldl
        (fun d t => dUpdate d (dateKey t) (dayUpd t) (DayAcc.mk 0 0 [])) [] := by
  suffices h : ∀ (l : List Txn) (acc : List (String × DayAcc)),
      l.foldl (fun d t =>
        if dateKey t = "" then d
        else dUpdate d (dateKey t) (dayUpd t) (DayAcc.mk 0 0 [])) acc =
      (l.filter (fun t => !(dateKey t == ""))).foldl
        (fun d t => dUpdate d (dateKey t) (dayUpd t) (DayAcc.mk 0 0 [])) acc by
    exact h ts []
  intro l
  induction l with
  | nil => intro acc; rfl
  | cons t l ih =>
      intro acc
      by_cases hb : dateKey t = "" <;> simp [hb, ih]

lemma dayFold_revenue :
    ∀ (l : List Txn) (a : DayAcc),
      (l.foldl (fun acc t => dayUpd t acc) a).revenue =
        a.revenue + (l.map pyAmount).sum
  | [], a => by simp
  | t :: l, a => by
      rw [List.foldl_cons, dayFold_revenue l (dayUpd t a)]
      simp only [dayUpd]
      rw [List.map_cons, List.sum_cons, add_assoc]

lemma dayFold_count :
    ∀ (l : List Txn) (a : DayAcc),
      (l.foldl (fun acc t => dayUpd t acc) a).transaction_count =
        a.transaction_count + l.length
  | [], a => by simp
  | t :: l, a => by
      rw [List.foldl_cons, dayFold_count l (dayUpd t a)]
      simp only [dayUpd]
      rw [List.length_cons]
      omega

lemma dayFold_custs :
    ∀ (l : List Txn) (a : DayAcc),
      (l.foldl (fun acc t => dayUpd t acc) a).custs =
        (((l.map custRaw).filter (fun c => !(c == ""))).foldl addNew a.custs)
  | [], a => by simp
  | t :: l, a => by
      rw [List.foldl_cons, dayFold_custs l (dayUpd t a)]
      by_cases hb : custRaw t = ""
      · have h1 : (dayUpd t a).custs = a.custs := by simp [dayUpd, hb]
        have h2 : (!(custRaw t == "")) = false := by simp [hb]
        simp [h1, h2]
      · have h2 : (!(custRaw t == "")) = true := by simp [hb]
        have h1 : (dayUpd t a).custs = addNew a.custs (custRaw t) := by
          simp [dayUpd, addNew, hb]
        simp [h1, h2]

lemma addNew_nodup {s : List String} (h : s.Nodup) (c : String) :
    (addNew s c).Nodup := by
  unfold addNew
  by_cases hm : c ∈ s
  · simp [hm, h]
  · simp only [hm, not_false_iff, if_true]
    exact List.Nodup.append h (List.nodup_singleton c)
      (by simpa using fun hc => hm hc)

lemma addNew_toFinset (s : List String) (c : String) :
    (addNew s c).toFinset = insert c s.toFinset := by
  unfold addNew
  by_cases hm : c ∈ s
  · simp [hm, Finset.insert_eq_self.mpr (List.mem_toFinset.mpr hm)]
  · simp only [hm, not_false_iff, if_true, List.toFinset_append,
      List.toFinset_cons, List.toFinset_nil, insert_emptyc_eq]
    rw [Finset.union_comm, ← Finset.insert_eq]

lemma foldl_addNew_nodup :
    ∀ (l : List String) (s : List String), s.Nodup → (l.foldl addNew s).Nodup
  | [], _, h => h
  | c :: l, s, h => foldl_addNew_nodup l (addNew s c) (addNew_nodup h c)

lemma foldl_addNew_toFinset :
    ∀ (l : List String) (s : List String),
      (l.foldl addNew s).toFinset = s.toFinset ∪ l.toFinset
  | [], s => by simp
  | c :: l, s => by
      rw [List.foldl_cons, foldl_addNew_toFinset l (addNew s c),
        addNew_toFinset, List.toFinset_cons, Finset.insert_union,
        Finset.union_insert]

lemma foldl_addNew_length (l : List String) :
    (l.foldl addNew []).length = l.toFinset.card := by
  have hnd := foldl_addNew_nodup l [] (List.nodup_nil)
  have hfs := foldl_addNew_toFinset l []
  simp only [List.toFinset_nil, Finset.empty_union] at hfs
  rw [← hfs]
  exact (List.toFinset_card_of_nodup hnd).symm

/-- Spec-side: the records grouped under day `d`. -/
def recsOn (ts : List Txn) (d : String) : List Txn :=
  ts.filter (fun t => dateKey t == d)

lemma dLookup_dailyAcc (ts : List Txn) (d : String) :
    dLookup (dailyAcc ts) d =
      if d = "" then none
      else if ts.any (fun t => dateKey t == d) then
        some (DayAcc.mk (((recsOn ts d).map pyAmount).sum)
          ((recsOn ts d).length)
          ((((recsOn ts d).map custRaw).filter (fun c => !(c == ""))).foldl
            addNew []))
      else none := by
  rw [dailyAcc_eq_filter]
  have h := dLookup_foldl_dUpdate dateKey dayUpd (DayAcc.mk 0 0 [])
    (ts.filter (fun t => !(dateKey t == ""))) [] d
  simp only [dLookup] at h
  rw [h]
  by_cases hd : d = ""
  · subst hd
    have hany : ((ts.filter (fun t => !(dateKey t == ""))).any
        (fun t => dateKey t == "")) = false := by
      rw [List.any_eq_false]
      intro t ht
      rw [List.mem_filter] at ht
      simpa using ht.2
    simp [hany]
  · have hfil : (ts.filter (fun t => !(dateKey t == ""))).filter
        (fun t => dateKey t == d) = recsOn ts d := by
      rw [List.filter_filter]
      unfold recsOn
      apply List.filter_congr
      intro t _
      by_cases ht : dateKey t = d
      · have h1 : (dateKey t == d) = true := by simp [ht]
        have h2 : (!(dateKey t == "")) = true := by simp [ht, hd]
        simp [h1, h2]
      · have h1 : (dateKey t == d) = false := by simp [ht]
        simp [h1]
    have hany : ((ts.filter (fun t => !(dateKey t == ""))).any
        (fun t => dateKey t == d)) = (ts.any (fun t => dateKey t == d)) := by
      cases hb : ts.any (fun t => dateKey t == d) with
      | false =>
          rw [List.any_eq_false] at hb ⊢
          intro t ht
          exact hb t (List.mem_filter.mp ht).1
      | true =>
          rw [List.any_eq_true] at hb ⊢
          obtain ⟨t, ht, he⟩ := hb
          have hne : (!(dateKey t == "")) = true := by
            have hdt : dateKey t = d := by simpa using he
            simp [hdt, hd]
          exact ⟨t, List.mem_filter.mpr ⟨ht, hne⟩, he⟩
    rw [if_neg hd, hany]
    by_cases ha : ts.any (fun t => dateKey t == d)
    · rw [if_pos ha, if_pos ha]
      unfold applyUpds
      rw [hfil]
      congr 1
      have heta : ∀ x : DayAcc,
          x = DayAcc.mk x.revenue x.transaction_count x.custs := fun x => rfl
      rw [heta ((recsOn ts d).foldl (fun a t => dayUpd t a) (DayAcc.mk 0 0 []))]
      rw [dayFold_revenue, dayFold_count, dayFold_custs]
      simp
    · rw [if_neg ha, if_neg ha]

lemma nodup_dKeys_dailyAcc (ts : List Txn) : (dKeys (dailyAcc ts)).Nodup := by
  rw [dailyAcc_eq_filter]
  exact nodup_dKeys_foldl dateKey dayUpd (DayAcc.mk 0 0 []) _ [] (by simp [dKeys])

lemma mem_dKeys_dailyAcc (ts : List Txn) (d : String) :
    d ∈ dKeys (dailyAcc ts) ↔
      d ≠ "" ∧ ts.any (fun t => dateKey t == d) := by
  rw [← dLookup_isSome_iff_mem_keys, dLookup_dailyAcc]
  by_cases hd : d = ""
  · simp [hd]
  · by_cases ha : ts.any (fun t => dateKey t == d) <;> simp [hd, ha]

lemma dLookup_map_keys {β : Type} :
    ∀ (keys : List String) (f : String → β), keys.Nodup → ∀ k,
      dLookup (keys.map (fun d => (d, f d))) k =
        if k ∈ keys then some (f k) else none
  | [], _, _, k => by simp [dLookup]
  | a :: l, f, hnd, k => by
      by_cases h : a = k
      · subst h
        simp [dLookup]
      · have hne : ¬ k = a := fun hc => h hc.symm
        rw [List.map_cons]
        simp only [dLookup, if_neg h]
        rw [dLookup_map_keys l f (List.nodup_cons.mp hnd).2 k]
        simp [hne]

lemma trend_keys_nodup (ts : List Txn) :
    ((dKeys (dailyAcc ts)).mergeSort (fun a b => decide (a ≤ b))).Nodup :=
  (List.mergeSort_perm (dKeys (dailyAcc ts)) _).nodup_iff.mpr
    (nodup_dKeys_dailyAcc ts)

/-- C10: the `daily_sales_trend` entry for a day `d` exists iff some
record carries that (non-blank) date; its revenue is the rounded sum of
the amounts of ALL records of that day and its transaction count is the
number of ALL records of that day (blank customer ids included), while
`unique_customers` is the number of DISTINCT NON-BLANK customer ids of
that day — a record with a blank customer id contributes to revenue and
transaction count but never to `unique_customers`. -/
theorem daily_trend_characterization (ts : List Txn) (d : String) :
    dLookup (daily_sales_trend ts) d =
      if d = "" ∨ ¬ ts.any (fun t => dateKey t == d) then none
      else some (DayStats.mk
        (pyRound2 (((recsOn ts d).map pyAmount).sum))
        ((recsOn ts d).length)
        ((((recsOn ts d).map custRaw).filter (fun c => !(c == ""))).toFinset.card)) := by
  unfold daily_sales_trend
  rw [dLookup_map_keys _ _ (trend_keys_nodup ts) d]
  have hmem : d ∈ (dKeys (dailyAcc ts)).mergeSort (fun a b => decide (a ≤ b)) ↔
      d ≠ "" ∧ ts.any (fun t => dateKey t == d) := by
    rw [(List.mergeSort_perm (dKeys (dailyAcc ts)) _).mem_iff]
    exact mem_dKeys_dailyAcc ts d
  by_cases hd : d = ""
  · have hnin : d ∉ (dKeys (dailyAcc ts)).mergeSort
        (fun a b => decide (a ≤ b)) := by
      rw [hmem]
      simp [hd]
    rw [if_neg hnin, if_pos (Or.inl hd)]
  · by_cases ha : ts.any (fun t => dateKey t == d)
    · have hin : d ∈ (dKeys (dailyAcc ts)).mergeSort
          (fun a b => decide (a ≤ b)) := hmem.mpr ⟨hd, ha⟩
      rw [if_pos hin, if_neg (by simp [hd, ha])]
      have hget : dGetD (dailyAcc ts) d (DayAcc.mk 0 0 []) =
          DayAcc.mk (((recsOn ts d).map pyAmount).sum)
            ((recsOn ts d).length)
            ((((recsOn ts d).map custRaw).filter (fun c => !(c == ""))).foldl
              addNew []) := by
        unfold dGetD
        rw [dLookup_dailyAcc]
        simp [hd, ha]
      rw [hget]
      simp only [Option.some.injEq]
      congr 1
      exact foldl_addNew_length _
    · have hnin : d ∉ (dKeys (dailyAcc ts)).mergeSort
          (fun a b => decide (a ≤ b)) := by
        rw [hmem]
        simp [ha]
      rw [if_neg hnin, if_pos (Or.inr ha)]

lemma trend_dates_sorted (ts : List Txn) :
    List.Pairwise (fun p q : String × DayStats => p.1 < q.1)
      (daily_sales_trend ts) := by
  unfold daily_sales_trend
  rw [List.pairwise_map]
  have hle := @List.sorted_mergeSort _ (fun a b : String => decide (a ≤ b))
      (fun a b c h1 h2 => by
        simp only [decide_eq_true_eq] at h1 h2 ⊢
        exact le_trans h1 h2)
      (fun a b => by
        simp only [Bool.or_eq_true, decide_eq_true_eq]
        exact le_total a b)
      (dKeys (dailyAcc ts))
  have hnd := trend_keys_nodup ts
  have hcomb := hle.and hnd
  refine hcomb.imp ?_
  rintro a b ⟨hab, hne⟩
  simp only [decide_eq_true_eq] at hab
  exact lt_of_le_of_ne hab hne

lemma dailyAcc_nil_of_blank (ts : List Txn)
    (h : ∀ t ∈ ts, dateKey t = "") : dailyAcc ts = [] := by
  rw [dailyAcc_eq_filter]
  have hf : ts.filter (fun t => !(dateKey t == "")) = [] := by
    rw [List.filter_eq_nil_iff]
    intro t ht
    simp [h t ht]
  rw [hf]
  rfl

lemma trend_nil_iff (ts : List Txn) :
    daily_sales_trend ts = [] ↔ ∀ t ∈ ts, dateKey t = "" := by
  constructor
  · intro hnil t ht
    by_contra hne
    have hmem : dateKey t ∈ dKeys (dailyAcc ts) :=
      (mem_dKeys_dailyAcc ts _).mpr
        ⟨hne, List.any_eq_true.mpr ⟨t, ht, by simp⟩⟩
    simp only [daily_sales_trend] at hnil
    rw [List.map_eq_nil_iff] at hnil
    have h2 : dKeys (dailyAcc ts) = [] := by
      have hperm := (List.mergeSort_perm (dKeys (dailyAcc ts))
        (fun a b => decide (a ≤ b))).symm
      rw [hnil] at hperm
      exact hperm.eq_nil
    rw [h2] at hmem
    simp at hmem
  · intro h
    simp [daily_sales_trend, dailyAcc_nil_of_blank ts h, dKeys]

/-- Python `max(iterable, key=revenue)`: fold that replaces the current
best only on a strictly larger key, so the first maximum survives. -/
def pyMaxFold (l : List (String × DayStats)) (b : String × DayStats) :
    String × DayStats :=
  l.foldl (fun b c => if b.2.revenue < c.2.revenue then c else b) b

lemma pyMaxFold_spec :
    ∀ (l : List (String × DayStats)) (b : String × DayStats),
      (∀ y ∈ l, b.1 < y.1) →
      List.Pairwise (fun p q : String × DayStats => p.1 < q.1) l →
      pyMaxFold l b ∈ b :: l ∧
      (∀ y ∈ b :: l, y.2.revenue ≤ (pyMaxFold l b).2.revenue) ∧
      (∀ y ∈ b :: l, y.2.revenue = (pyMaxFold l b).2.revenue →
        (pyMaxFold l b).1 ≤ y.1)
  | [], b, _, _ => by
      simp only [pyMaxFold, List.foldl_nil]
      refine ⟨List.mem_cons_self b [], ?_, ?_⟩
      · intro y hy
        rcases List.mem_cons.mp hy with rfl | h
        · exact le_refl _
        · simp at h
      · intro y hy _
        rcases List.mem_cons.mp hy with rfl | h
        · exact le_refl _
        · simp at h
  | c :: l, b, hlt, hp => by
      have hp' := List.pairwise_cons.mp hp
      by_cases hbc : b.2.revenue < c.2.revenue
      · have hb' : pyMaxFold (c :: l) b = pyMaxFold l c := by
          simp [pyMaxFold, hbc]
        have ih := pyMaxFold_spec l c hp'.1 hp'.2
        obtain ⟨ihm, ihb, iht⟩ := ih
        rw [hb']
        refine ⟨List.mem_cons_of_mem b ihm, ?_, ?_⟩
        · intro y hy
          rcases List.mem_cons.mp hy with rfl | hy2
          · exact le_trans (le_of_lt hbc) (ihb c (List.mem_cons_self c l))
          · exact ihb y hy2
        · intro y hy heq
          rcases List.mem_cons.mp hy with rfl | hy2
          · exfalso
            have h2 : y.2.revenue < (pyMaxFold l c).2.revenue :=
              lt_of_lt_of_le hbc (ihb c (List.mem_cons_self c l))
            rw [heq] at h2
            exact lt_irrefl _ h2
          · exact iht y hy2 heq
      · have hb' : pyMaxFold (c :: l) b = pyMaxFold l b := by
          simp [pyMaxFold, hbc]
        have hlt' : ∀ y ∈ l, b.1 < y.1 := fun y hy =>
          hlt y (List.mem_cons_of_mem c hy)
        have ih := pyMaxFold_spec l b hlt' hp'.2
        obtain ⟨ihm, ihb, iht⟩ := ih
        rw [hb']
        refine ⟨?_, ?_, ?_⟩
        · rcases List.mem_cons.mp ihm with he | hm
          · rw [he]
            exact List.mem_cons_self b (c :: l)
          · exact List.mem_cons_of_mem b (List.mem_cons_of_mem c hm)
        · intro y hy
          rcases List.mem_cons.mp hy with rfl | hy2
          · exact ihb y (List.mem_cons_self y l)
          rcases List.mem_cons.mp hy2 with rfl | hy3
          · exact le_trans (not_lt.mp hbc) (ihb b (List.mem_cons_self b l))
          · exact ihb y (List.mem_cons_of_mem b hy3)
        · intro y hy heq
          rcases List.mem_cons.mp hy with rfl | hy2
          · exact iht y (List.mem_cons_self y l) heq
          rcases List.mem_cons.mp hy2 with rfl | hy3
          · have hble : b.2.revenue ≤ (pyMaxFold l b).2.revenue :=
              ihb b (List.mem_cons_self b l)
            have hcb : y.2.revenue ≤ b.2.revenue := not_lt.mp hbc
            have hbeq : b.2.revenue = (pyMaxFold l b).2.revenue :=
              le_antisymm hble (heq ▸ hcb)
            have h1 : (pyMaxFold l b).1 ≤ b.1 :=
              iht b (List.mem_cons_self b l) hbeq
            exact le_trans h1 (le_of_lt (hlt y (List.mem_cons_self y l)))
          · exact iht y (List.mem_cons_of_mem b hy3) heq

/-- C7: `find_peak_sales_day` returns `none` exactly when no record has
a non-blank date; otherwise it returns a date of `daily_sales_trend`
with its (rounded) revenue and transaction count, the revenue is maximal
over the trend, and among revenue ties the returned date is the
earliest (the first maximum in the trend's ascending date order). -/
theorem find_peak_sales_day_spec (ts : List Txn) :
    (find_peak_sales_day ts = none ↔ ∀ t ∈ ts, dateKey t = "")
    ∧ (∀ d rev cnt, find_peak_sales_day ts = some (d, rev, cnt) →
        (∃ s : DayStats, (d, s) ∈ daily_sales_trend ts ∧ s.revenue = rev ∧
          s.transaction_count = cnt) ∧
        (∀ p ∈ daily_sales_trend ts,
          p.2.revenue ≤ rev ∧ (p.2.revenue = rev → d ≤ p.1))) := by
  cases htr : daily_sales_trend ts with
  | nil =>
      have hN : find_peak_sales_day ts = none := by
        unfold find_peak_sales_day
        rw [htr]
      constructor
      · exact ⟨fun _ => (trend_nil_iff ts).mp htr, fun _ => hN⟩
      · intro d rev cnt h
        rw [hN] at h
        simp at h
  | cons x rest =>
      have hpeak : find_peak_sales_day ts =
          some ((pyMaxFold rest x).1, (pyMaxFold rest x).2.revenue,
            (pyMaxFold rest x).2.transaction_count) := by
        unfold find_peak_sales_day
        rw [htr]
        rfl
      have hsorted := trend_dates_sorted ts
      rw [htr] at hsorted
      have hp' := List.pairwise_cons.mp hsorted
      obtain ⟨hm, hb, ht⟩ := pyMaxFold_spec rest x hp'.1 hp'.2
      constructor
      · constructor
        · intro h
          rw [hpeak] at h
          simp at h
        · intro h
          have := (trend_nil_iff ts).mpr h
          rw [htr] at this
          simp at this
      · intro d rev cnt h
        rw [hpeak] at h
        simp only [Option.some.injEq, Prod.mk.injEq] at h
        obtain ⟨hd, hrev, hcnt⟩ := h
        refine ⟨⟨(pyMaxFold rest x).2, ?_, hrev, hcnt⟩, ?_⟩
        · rw [← hd]
          exact hm
        · intro p hp
          exact ⟨hrev ▸ hb p hp, fun he => hd ▸ ht p hp (he.trans hrev.symm)⟩

/-- Witness for C7 at a concrete record list realizing the spec example
(two records on `2024-01-02` with revenues 20 and 30, one on
`2024-01-01` with revenue 40 → peak `("2024-01-02", 50, 2)`). -/
theorem find_peak_sales_day_witness :
    (∃ s : DayStats, ("2024-01-02", s) ∈
        daily_sales_trend [sampleA, sampleB, sampleC] ∧
      s.revenue = 50 ∧ s.transaction_count = 2) ∧
    (∀ p ∈ daily_sales_trend [sampleA, sampleB, sampleC],
      p.2.revenue ≤ 50 ∧ (p.2.revenue = 50 → "2024-01-02" ≤ p.1)) := by
  refine (find_peak_sales_day_spec [sampleA, sampleB, sampleC]).2
    "2024-01-02" 50 2 ?_
  with_unfolding_all decide

/-! ### C8: catalog enrichment -/

/-- C8: `enrich_sales_data` processes every record (never fails on one):
the output pairs up with the input one record each; the numeric id is
the decimal value of ALL the digit characters of `ProductID`
concatenated in order; when that id is a key of the mapping the output
carries the mapping's category/brand/rating and `API_Match = true`,
otherwise the three metadata fields are null and `API_Match = false`; a
record with no digits at all is simply unmatched. -/
theorem enrich_sales_data_spec (ts : List Txn) (m : List (Int × ApiMeta)) :
    List.Forall₂ (fun t e =>
      e.base = t ∧
      ((((Txn.getStr t.productID).toList.filter Char.isDigit) = [] →
          e = ETxn.mk t none none none false) ∧
       (((Txn.getStr t.productID).toList.filter Char.isDigit) ≠ [] →
          (∀ info, mLookup m
              ((natOfDigits
                ((Txn.getStr t.productID).toList.filter Char.isDigit) : Int)) =
                some info →
            e = ETxn.mk t info.category info.brand info.rating true) ∧
          (mLookup m
              ((natOfDigits
                ((Txn.getStr t.productID).toList.filter Char.isDigit) : Int)) =
                none →
            e = ETxn.mk t none none none false))))
      ts (enrich_sales_data ts m) := by
  induction ts with
  | nil => exact List.Forall₂.nil
  | cons t ts ih =>
      refine List.Forall₂.cons ?_ ih
      by_cases hdig : ((Txn.getStr t.productID).toList.filter Char.isDigit) = []
      · have hex : extract_numeric_product_id (Txn.getStr t.productID) =
            none := by
          simp only [extract_numeric_product_id]
          rw [if_pos hdig]
        refine ⟨?_, fun _ => ?_, fun hne => absurd hdig hne⟩
        · simp [enrichOne, hex]
        · simp [enrichOne, hex]
      · have hex : extract_numeric_product_id (Txn.getStr t.productID) =
            some (natOfDigits
              ((Txn.getStr t.productID).toList.filter Char.isDigit)) := by
          simp only [extract_numeric_product_id]
          rw [if_neg hdig]
        refine ⟨?_, fun hc => absurd hc hdig, fun _ => ⟨?_, ?_⟩⟩
        · cases hl : mLookup m
              ((natOfDigits
                ((Txn.getStr t.productID).toList.filter Char.isDigit) : Int)) with
          | none =>
              simp only [enrichOne, hex]
              rw [hl]
          | some info =>
              simp only [enrichOne, hex]
              rw [hl]
        · intro info hinfo
          simp only [enrichOne, hex]
          rw [hinfo]
        · intro hnone
          simp only [enrichOne, hex]
          rw [hnone]

/-- The spec example mapping: id 100 ↦ category `Toys`, brand `Acme`,
rating 4.5. -/
def demoMapping : List (Int × ApiMeta) :=
  [(100, ApiMeta.mk (some (PyVal.vStr "Widget")) (some (PyVal.vStr "Toys"))
    (some (PyVal.vStr "Acme")) (some (PyVal.vFloat (9/2))))]

/-- Witness for C8: enriching `P100` against the demo mapping matches
and copies the metadata. -/
theorem enrich_sales_data_witness :
    enrich_sales_data [sampleA] demoMapping =
      [ETxn.mk sampleA (some (PyVal.vStr "Toys")) (some (PyVal.vStr "Acme"))
        (some (PyVal.vFloat (9/2))) true] := by
  have h := enrich_sales_data_spec [sampleA] demoMapping
  rcases h with _ | ⟨⟨hbase, hd⟩, hrest⟩
  cases hrest
  have hne : ((Txn.getStr sampleA.productID).toList.filter Char.isDigit) ≠ [] := by
    with_unfolding_all decide
  have hlook : mLookup demoMapping
      ((natOfDigits
        ((Txn.getStr sampleA.productID).toList.filter Char.isDigit) : Int)) =
      some (ApiMeta.mk (some (PyVal.vStr "Widget")) (some (PyVal.vStr "Toys"))
        (some (PyVal.vStr "Acme")) (some (PyVal.vFloat (9/2)))) := by
    with_unfolding_all decide
  show [enrichOne demoMapping sampleA] = _
  rw [(hd.2 hne).1 _ hlook]

/-! ### C3: the enriched side-file is not LF-terminated -/

/-- A concrete enriched record as produced by enrichment of `sampleA`
against the demo mapping (`API_Match = True`). -/
def demoEnriched : ETxn :=
  ETxn.mk sampleA (some (PyVal.vStr "Toys")) (some (PyVal.vStr "Acme"))
    (some (PyVal.vFloat (9/2))) true

/-- C3 fails on the code: writing one enriched record with
`save_enriched_data` produces a file whose entire content is ONE line
(the appended line terminator in the source is the empty string, not
`LF`), so splitting the content on LF and re-reading the 12th
pipe-column of the data lines yields NO `API_Match` values at all, while
the in-memory record written had `API_Match = true`. -/
theorem save_enriched_data_no_roundtrip :
    (save_enriched_data_content [demoEnriched]).isSome = true ∧
    ((save_enriched_data_content [demoEnriched]).map
      (fun c => (c.splitOn "\n").length)) = some 1 ∧
    ((save_enriched_data_content [demoEnriched]).map reparsedMatchColumn) =
      some [] ∧
    [demoEnriched].map (fun e => e.api_match) = [true] := by
  refine ⟨?_, ?_, ?_, rfl⟩ <;> with_unfolding_all decide

/-! ### C9: `read_sales_data` keeps trailing newlines -/

/-- A raw input line as `readlines` would hand it over, trailing LF
included. -/
def demoRawLine : String := "T1|2024-01-02|P100|Widget|2|10.0|C1|North\n"

/-- C9 fails on the code: `rstrip('')` strips nothing, so the line comes
back verbatim, trailing newline included — not right-trimmed. (The
non-blank half of the claim does hold: the kept lines all have non-blank
`strip()`.) -/
theorem read_sales_data_keeps_trailing_newline :
    read_sales_data [demoRawLine] = [demoRawLine] ∧
    demoRawLine.endsWith "\n" = true ∧
    (read_sales_data [demoRawLine]).all (fun s => s.trim ≠ "") = true := by
  refine ⟨?_, ?_, ?_⟩ <;> with_unfolding_all decide

/-! ### C4: the renderer returns the output path, not the report text -/

/-- Model of `os.path.abspath` for a run whose working directory is
`/app`. -/
def demoAbsPath (p : String) : String := "/app/" ++ p

/-- Counterexample to C4 as stated: at a concrete (empty) input the
value `generate_sales_report` hands back differs from the text it wrote
— the source ends with `return os.path.abspath(output_file)`, not the
report text. -/
theorem generate_sales_report_return_counterexample :
    (generate_sales_report [] [] "2026-10-12 00:00:00" "$" 10 demoAbsPath
      "output/sales_report.txt").returned ≠
    (generate_sales_report [] [] "2026-10-12 00:00:00" "$" 10 demoAbsPath
      "output/sales_report.txt").written := by
  with_unfolding_all decide

/-- C4 amended: `generate_sales_report` writes the report text verbatim
to the target path but RETURNS the absolute path of the output file (as
its own docstring says), never the report text — for any abspath whose
result has no newline, the returned value differs from the written
text, which always ends in a newline. -/
theorem generate_sales_report_returns_abspath (txns : List Txn)
    (etxns : List ETxn) (now currency_symbol : String) (low_threshold : Int)
    (abspath : String → String) (output_file : String)
    (h : '\n' ∉ (abspath output_file).data) :
    (generate_sales_report txns etxns now currency_symbol low_threshold
        abspath output_file).returned = abspath output_file
    ∧ (generate_sales_report txns etxns now currency_symbol low_threshold
        abspath output_file).returned ≠
      (generate_sales_report txns etxns now currency_symbol low_threshold
        abspath output_file).written := by
  refine ⟨rfl, ?_⟩
  intro hc
  apply h
  have hw : '\n' ∈ (generate_sales_report txns etxns now currency_symbol
      low_threshold abspath output_file).written.data := by
    show '\n' ∈ (String.intercalate "\n"
      (generate_sales_report_lines txns etxns now currency_symbol
        low_threshold) ++ "\n").data
    rw [String.data_append]
    exact List.mem_append_right _ (by simp [String.data])
  have : (generate_sales_report txns etxns now currency_symbol low_threshold
      abspath output_file).returned = abspath output_file := rfl
  rw [← this, hc]
  exact hw

/-- Witness for the amended C4 at a concrete input. -/
theorem generate_sales_report_returns_abspath_witness :
    ('\n' ∉ (demoAbsPath "output/sales_report.txt").data) ∧
    (generate_sales_report [sampleA] [demoEnriched] "2026-10-12 00:00:00"
        "$" 10 demoAbsPath "output/sales_report.txt").returned =
      demoAbsPath "output/sales_report.txt" := by
  have hn : '\n' ∉ (demoAbsPath "output/sales_report.txt").data := by
    with_unfolding_all decide
  exact ⟨hn, (generate_sales_report_returns_abspath [sampleA] [demoEnriched]
    "2026-10-12 00:00:00" "$" 10 demoAbsPath "output/sales_report.txt" hn).1⟩
